import Mathlib

/-!
Shallow embedding of the ws-server session registry and room-message relay
(src/server.ts, class SocketIOServer) together with the repository contract
it consumes (Repository.create / findOne / updateOne).

JavaScript `Map` objects are modelled as insertion-ordered association
lists: `set` on an existing key updates the value in place, `set` on a
fresh key appends, `delete` removes the entry.  JavaScript `Set` objects
are modelled as duplicate-free insertion-ordered lists.
-/

namespace WsServer

/-- JS `Map.get`: value stored at key `k`, if any. -/
def alookup (k : String) : List (String × α) → Option α
  | [] => none
  | (k', v) :: rest => if k' = k then some v else alookup k rest

/-- JS `Map.set`: replace in place when the key is present, append otherwise. -/
def aset (k : String) (v : α) : List (String × α) → List (String × α)
  | [] => [(k, v)]
  | (k', v') :: rest => if k' = k then (k, v) :: rest else (k', v') :: aset k v rest

/-- JS `Map.delete`: drop the (unique) entry with key `k`. -/
def adel (k : String) : List (String × α) → List (String × α)
  | [] => []
  | (k', v') :: rest => if k' = k then rest else (k', v') :: adel k rest

/-- Keys of the map, in insertion order. -/
def akeys (l : List (String × α)) : List String := l.map Prod.fst

/-- JS `Set.add`: append when absent, keep unchanged when present. -/
def sadd (x : String) (s : List String) : List String :=
  if x ∈ s then s else s ++ [x]

theorem alookup_aset_self (k : String) (v : α) (l : List (String × α)) :
    alookup k (aset k v l) = some v := by
  induction l with
  | nil => simp [aset, alookup]
  | cons p rest ih =>
    obtain ⟨k', v'⟩ := p
    by_cases h : k' = k <;> simp [aset, alookup, h, ih]

theorem alookup_aset_ne (k k' : String) (v : α) (l : List (String × α)) (h : k ≠ k') :
    alookup k' (aset k v l) = alookup k' l := by
  induction l with
  | nil => simp [aset, alookup, h]
  | cons p rest ih =>
    obtain ⟨k₀, v₀⟩ := p
    by_cases h0 : k₀ = k
    · subst h0
      simp [aset, alookup, h, fun he : k₀ = k' => h he]
    · by_cases h1 : k₀ = k' <;> simp [aset, alookup, h0, h1, ih, Ne.symm h]

theorem alookup_eq_none_of_not_mem (k : String) (l : List (String × α))
    (h : k ∉ akeys l) : alookup k l = none := by
  induction l with
  | nil => rfl
  | cons p rest ih =>
    obtain ⟨k₀, v₀⟩ := p
    rw [akeys, List.map_cons, List.mem_cons] at h
    push_neg at h
    rw [alookup, if_neg (fun he => h.1 he.symm)]
    exact ih h.2

theorem alookup_adel_self (k : String) (l : List (String × α))
    (hnd : (akeys l).Nodup) : alookup k (adel k l) = none := by
  induction l with
  | nil => rfl
  | cons p rest ih =>
    obtain ⟨k₀, v₀⟩ := p
    rw [akeys, List.map_cons, List.nodup_cons] at hnd
    by_cases h0 : k₀ = k
    · subst h0
      rw [adel, if_pos rfl]
      exact alookup_eq_none_of_not_mem _ _ hnd.1
    · rw [adel, if_neg h0, alookup, if_neg h0]
      exact ih hnd.2

theorem alookup_adel_ne (k k' : String) (l : List (String × α)) (h : k ≠ k') :
    alookup k' (adel k l) = alookup k' l := by
  induction l with
  | nil => rfl
  | cons p rest ih =>
    obtain ⟨k₀, v₀⟩ := p
    by_cases h0 : k₀ = k
    · subst h0
      simp [adel, alookup, fun he : k₀ = k' => h he]
    · by_cases h1 : k₀ = k' <;> simp [adel, alookup, h0, h1, ih, Ne.symm h]

theorem akeys_adel (k : String) (l : List (String × α)) :
    akeys (adel k l) = (akeys l).erase k := by
  induction l with
  | nil => rfl
  | cons p rest ih =>
    obtain ⟨k₀, v₀⟩ := p
    by_cases h0 : k₀ = k
    · subst h0
      simp [adel, akeys]
    · simp only [adel, if_neg h0, akeys, List.map_cons]
      rw [List.erase_cons_tail (by simp [h0])]
      exact congrArg _ (by simpa [akeys] using ih)

theorem akeys_aset_of_mem (k : String) (v : α) (l : List (String × α))
    (h : k ∈ akeys l) : akeys (aset k v l) = akeys l := by
  induction l with
  | nil => cases h
  | cons p rest ih =>
    obtain ⟨k₀, v₀⟩ := p
    by_cases h0 : k₀ = k
    · simp [aset, akeys, h0]
    · simp only [akeys, List.map_cons, List.mem_cons] at h
      rcases h with h | h

      · exact absurd h.symm h0
      · simpa [aset, akeys, h0] using ih (by simpa [akeys] using h)

theorem akeys_aset_of_not_mem (k : String) (v : α) (l : List (String × α))
    (h : k ∉ akeys l) : akeys (aset k v l) = akeys l ++ [k] := by
  induction l with
  | nil => rfl
  | cons p rest ih =>
    obtain ⟨k₀, v₀⟩ := p
    simp only [akeys, List.map_cons, List.mem_cons] at h
    push_neg at h
    have h0 : ¬k₀ = k := fun he => h.1 he.symm
    simp only [aset, if_neg h0, akeys, List.map_cons, List.cons_append]
    exact congrArg _ (by simpa [akeys] using ih (by simpa [akeys] using h.2))

theorem mem_akeys_of_alookup (k : String) (v : α) (l : List (String × α))
    (h : alookup k l = some v) : k ∈ akeys l := by
  induction l with
  | nil => cases h
  | cons p rest ih =>
    obtain ⟨k₀, v₀⟩ := p
    by_cases h0 : k₀ = k
    · simp [akeys, h0]
    · rw [alookup, if_neg h0] at h
      simp [akeys, List.mem_cons]
      exact Or.inr (by simpa [akeys] using ih h)

theorem alookup_isSome_of_mem_akeys (k : String) (l : List (String × α))
    (h : k ∈ akeys l) : (alookup k l).isSome := by
  induction l with
  | nil => cases h
  | cons p rest ih =>
    obtain ⟨k₀, v₀⟩ := p
    by_cases h0 : k₀ = k
    · simp [alookup, h0]
    · rw [akeys, List.map_cons, List.mem_cons] at h
      rcases h with h | h
      · exact absurd h.symm h0
      · rw [alookup, if_neg h0]
        exact ih (by simpa [akeys] using h)

theorem adel_of_alookup_none (k : String) (l : List (String × α))
    (h : alookup k l = none) : adel k l = l := by
  induction l with
  | nil => rfl
  | cons p rest ih =>
    obtain ⟨k₀, v₀⟩ := p
    by_cases h0 : k₀ = k
    · rw [alookup, if_pos h0] at h
      cases h
    · rw [alookup, if_neg h0] at h
      rw [adel, if_neg h0, ih h]

/-- Sum of a numeric projection of the values of a map. -/
def asum (f : α → Nat) (l : List (String × α)) : Nat :=
  (l.map (fun p => f p.2)).sum

theorem asum_aset_not_mem (f : α → Nat) (k : String) (v : α) (l : List (String × α))
    (h : k ∉ akeys l) : asum f (aset k v l) = asum f l + f v := by
  induction l with
  | nil => simp [aset, asum]
  | cons p rest ih =>
    obtain ⟨k₀, v₀⟩ := p
    simp only [akeys, List.map_cons, List.mem_cons] at h
    push_neg at h
    have h0 : ¬k₀ = k := fun he => h.1 he.symm
    simp only [aset, if_neg h0, asum, List.map_cons, List.sum_cons]
    rw [show (List.map (fun p => f p.2) (aset k v rest)).sum = asum f (aset k v rest) from rfl,
      ih (by simpa [akeys] using h.2)]
    simp [asum]
    omega

theorem asum_aset_lookup (f : α → Nat) (k : String) (v w : α) (l : List (String × α))
    (h : alookup k l = some w) : asum f (aset k v l) + f w = asum f l + f v := by
  induction l with
  | nil => cases h
  | cons p rest ih =>
    obtain ⟨k₀, v₀⟩ := p
    by_cases h0 : k₀ = k
    · rw [alookup, if_pos h0] at h
      injection h with h
      subst h
      simp only [aset, if_pos h0, asum, List.map_cons, List.sum_cons]
      omega
    · rw [alookup, if_neg h0] at h
      simp only [aset, if_neg h0, asum, List.map_cons, List.sum_cons]
      have := ih h
      simp only [asum] at this
      omega

theorem asum_adel_lookup (f : α → Nat) (k : String) (w : α) (l : List (String × α))
    (h : alookup k l = some w) : asum f (adel k l) + f w = asum f l := by
  induction l with
  | nil => cases h
  | cons p rest ih =>
    obtain ⟨k₀, v₀⟩ := p
    by_cases h0 : k₀ = k
    · rw [alookup, if_pos h0] at h
      injection h with h
      subst h
      simp only [adel, if_pos h0, asum, List.map_cons, List.sum_cons]
      omega
    · rw [alookup, if_neg h0] at h
      simp only [adel, if_neg h0, asum, List.map_cons, List.sum_cons]
      have := ih h
      simp only [asum] at this
      omega

theorem length_eq_akeys_length (l : List (String × α)) :
    l.length = (akeys l).length := by
  simp [akeys]

theorem aset_length_not_mem (k : String) (v : α) (l : List (String × α))
    (h : k ∉ akeys l) : (aset k v l).length = l.length + 1 := by
  rw [length_eq_akeys_length, length_eq_akeys_length,
    akeys_aset_of_not_mem k v l h]
  simp

theorem aset_length_lookup (k : String) (v w : α) (l : List (String × α))
    (h : alookup k l = some w) : (aset k v l).length = l.length := by
  rw [length_eq_akeys_length, length_eq_akeys_length,
    akeys_aset_of_mem k v l (mem_akeys_of_alookup k w l h)]

theorem adel_length_lookup (k : String) (w : α) (l : List (String × α))
    (h : alookup k l = some w) : (adel k l).length + 1 = l.length := by
  induction l with
  | nil => cases h
  | cons p rest ih =>
    obtain ⟨k₀, v₀⟩ := p
    by_cases h0 : k₀ = k
    · simp [adel, h0]
    · rw [alookup, if_neg h0] at h
      simp only [adel, if_neg h0, List.length_cons]
      rw [← ih h]

/-- Presence status domain of UserInfo.status and UserSession.status
(src/server.ts lines 1720 and 1730). -/
inductive Status
  | online
  | offline
  | away
  | busy
deriving DecidableEq, Repr

/-- Status domain of the inbound status_update event, which its declared
payload type restricts to online, away or busy (src/server.ts line 1907). -/
inductive ActiveStatus
  | online
  | away
  | busy
deriving DecidableEq, Repr

def ActiveStatus.toStatus : ActiveStatus → Status
  | .online => .online
  | .away => .away
  | .busy => .busy

/-- UserInfo record (src/server.ts lines 1717-1724).  ISO timestamps are
modelled as natural-number clock values. -/
structure UserInfo where
  socketId : String
  username : Option String
  status : Status
  lastSeen : Nat
  avatar : Option String
  customStatus : Option String
deriving DecidableEq, Repr

/-- UserSession record (src/server.ts lines 1727-1734).  The JS Set of
socket ids is modelled as a duplicate-free insertion-ordered list. -/
structure UserSession where
  username : String
  socketIds : List String
  status : Status
  lastSeen : Nat
  avatar : Option String
  customStatus : Option String
deriving DecidableEq, Repr

/-- Persisted chat message document (interface ChatMessage, src/server.ts
lines 1738-1751), with ObjectId references modelled as strings and the
inserted _id as a natural number. -/
structure MsgRecord where
  id : Nat
  room_id : String
  sender : String
  receiver : String
  product : String
  content : String
  sent_at : Nat
  status : String
  message_type : String
deriving DecidableEq, Repr

/-- Persisted chat room document (interface ChatRoom, src/server.ts lines
1753-1762). -/
structure RoomRecord where
  room_id : String
  last_message : Option String
  last_message_at : Option Nat
  last_message_sender : Option String
  unread_count_acheteur : Nat
  unread_count_partenaire : Nat
deriving DecidableEq, Repr

/-- State of the external MongoDB store consumed through the Repository
contract (src/unnamed/part_002, class Repository): the message collection,
the room collection, the set of user document ids, and the next insert id. -/
structure RepoState where
  messages : List MsgRecord
  rooms : List RoomRecord
  users : List String
  nextId : Nat
deriving DecidableEq, Repr

/-- Which awaited repository calls throw during one room-message handling:
fault injection for the try/catch structure of saveMessageToMongoDB
(src/server.ts lines 2047-2113). -/
structure FailureModel where
  createFails : Bool
  findRoomFails : Bool
  findUserFails : Bool
  updateFails : Bool
deriving DecidableEq, Repr

/-- Fields of a structured room-message payload read by the chat pipeline:
data.message.roomId / senderId / receiverId / productId and
data.message.data.message / timespan / type. -/
structure ChatContent where
  roomId : String
  senderId : String
  receiverId : String
  productId : String
  text : String
  timespan : Nat
  msgType : String
deriving DecidableEq, Repr

/-- Body of a room_message event: a plain string or a structured action
payload (src/server.ts line 2124). -/
inductive MsgBody
  | plain (s : String)
  | structured (action : String) (content : ChatContent)
deriving DecidableEq, Repr

/-- Inbound user_info_update payload: Partial UserInfo, every field
optional (src/server.ts line 1912). -/
structure InfoUpdate where
  socketId : Option String
  username : Option String
  status : Option Status
  avatar : Option String
  customStatus : Option String
deriving DecidableEq, Repr

/-- Destination of an emitted event: io.emit, socket.broadcast.emit,
socket.emit / io.to(socketId), io.to(room), socket.to(room). -/
inductive Target
  | all
  | exceptSocket (s : String)
  | socket (s : String)
  | room (r : String)
  | roomExceptSocket (r s : String)
deriving DecidableEq, Repr

/-- Message field of an outbound room_message payload: omitted (chat save
failed), the persisted document spread with action "chat", or the inbound
body relayed verbatim. -/
inductive RoomMsgContent
  | omitted
  | persisted (m : MsgRecord)
  | verbatim (b : MsgBody)
deriving DecidableEq, Repr

/-- Outbound events emitted by the modelled handlers. -/
inductive OutEvent
  | welcome (target : Target) (socketId : String) (time : Nat)
  | userList (target : Target) (users : List UserInfo)
  | userStatusChanged (target : Target) (username : String) (socketId : String)
      (status : Status) (customStatus : Option String) (time : Nat)
  | userDisconnected (target : Target) (username : String) (socketId : String)
      (reason : String) (time : Nat)
  | userJoined (target : Target) (socketId : String) (username : Option String)
      (room : String) (time : Nat)
  | joinedRoom (target : Target) (room : String)
  | userLeftRoom (target : Target) (socketId : String) (username : Option String)
      (room : String) (time : Nat)
  | roomMessage (target : Target) (fromSocket : String) (fromUsername : Option String)
      (room : String) (content : RoomMsgContent) (time : Nat)
  | heartbeat (time : Nat) (connectedClients : Nat) (totalSockets : Nat)
deriving DecidableEq, Repr

/-- Whole in-memory state of the SocketIOServer instance: the three maps
(src/server.ts lines 1782-1784), transport room membership, and the
external store with its initialization flag. -/
structure ServerState where
  onlineUsers : List (String × UserInfo)
  userSessions : List (String × UserSession)
  socketToUsername : List (String × String)
  rooms : List (String × List String)
  repo : RepoState
  hasRepos : Bool
deriving DecidableEq, Repr

/-- JS truthiness of an optional string: undefined and the empty string are
falsy. -/
def truthy : Option String → Bool
  | none => false
  | some s => decide (s ≠ "")

/-- JS a || b on optional strings. -/
def jsOr (a b : Option String) : Option String :=
  if truthy a then a else b

/-- Username resolution at handshake (src/server.ts line 1854):
auth.username, else auth.userInfo.username, else a name synthesized from
the socket id. -/
def resolveUsername (socketId : String) (authUsername authInfoUsername : Option String) :
    String :=
  (jsOr (jsOr authUsername authInfoUsername) none).getD ("User " ++ socketId.take 6)

/-- getUniqueUserList (src/server.ts lines 1967-1976): one record per
session, using the earliest-added socket id as representative. -/
def getUniqueUserList (st : ServerState) : List UserInfo :=
  st.userSessions.map (fun p =>
    { socketId := p.2.socketIds.headD ""
      username := some p.2.username
      status := p.2.status
      lastSeen := p.2.lastSeen
      avatar := p.2.avatar
      customStatus := p.2.customStatus })

/-- addUserSession (src/server.ts lines 1923-1945). -/
def addUserSession (username socketId : String) (userInfo : UserInfo)
    (sessions : List (String × UserSession)) : List (String × UserSession) :=
  match alookup username sessions with
  | none =>
      aset username
        { username := username
          socketIds := [socketId]
          status := userInfo.status
          lastSeen := userInfo.lastSeen
          avatar := userInfo.avatar
          customStatus := userInfo.customStatus } sessions
  | some sess =>
      aset username
        { sess with
          socketIds := sadd socketId sess.socketIds
          lastSeen := userInfo.lastSeen
          avatar := if truthy userInfo.avatar then userInfo.avatar else sess.avatar
          customStatus :=
            if truthy userInfo.customStatus then userInfo.customStatus
            else sess.customStatus } sessions

/-- removeSocketFromSession (src/server.ts lines 1948-1964): returns the
updated state and whether the user is now completely disconnected. -/
def removeSocketFromSession (st : ServerState) (socketId : String) :
    ServerState × Bool :=
  match alookup socketId st.socketToUsername with
  | none => (st, false)
  | some username =>
    match alookup username st.userSessions with
    | none => (st, false)
    | some sess =>
      let newIds := sess.socketIds.erase socketId
      if newIds.length = 0 then
        ({ st with userSessions := adel username st.userSessions }, true)
      else
        ({ st with
            userSessions :=
              aset username { sess with socketIds := newIds } st.userSessions },
          false)

/-- handleConnection (src/server.ts lines 1847-1918), state mutations and
emitted events. -/
def handleConnection (st : ServerState) (socketId : String)
    (authUsername authInfoUsername avatar customStatus : Option String)
    (time : Nat) : ServerState × List OutEvent :=
  let username := resolveUsername socketId authUsername authInfoUsername
  let userInfo : UserInfo :=
    { socketId := socketId, username := some username, status := .online,
      lastSeen := time, avatar := avatar, customStatus := customStatus }
  let st1 := { st with
    onlineUsers := aset socketId userInfo st.onlineUsers,
    socketToUsername := aset socketId username st.socketToUsername }
  let st2 := { st1 with
    userSessions := addUserSession username socketId userInfo st1.userSessions }
  let statusEvents :=
    match alookup username st2.userSessions with
    | some sess =>
        if sess.socketIds.length = 1 then
          [OutEvent.userStatusChanged (.exceptSocket socketId) username socketId
            .online userInfo.customStatus time]
        else []
    | none => []
  (st2,
    [OutEvent.welcome (.socket socketId) socketId time,
     OutEvent.userList (.socket socketId) (getUniqueUserList st2)]
    ++ statusEvents
    ++ [OutEvent.userList .all (getUniqueUserList st2)])

/-- handleStatusUpdate (src/server.ts lines 2210-2255). -/
def handleStatusUpdate (st : ServerState) (socketId : String)
    (status : ActiveStatus) (customStatus : Option String) (time : Nat) :
    ServerState × List OutEvent :=
  match alookup socketId st.socketToUsername with
  | none => (st, [])
  | some username =>
    match alookup username st.userSessions with
    | none => (st, [])
    | some sess =>
      let sess2 := { sess with
        status := status.toStatus
        customStatus := jsOr customStatus sess.customStatus
        lastSeen := time }
      let st1 := { st with userSessions := aset username sess2 st.userSessions }
      let st2 :=
        match alookup socketId st1.onlineUsers with
        | none => st1
        | some info =>
          { st1 with
            onlineUsers := aset socketId
              { info with
                status := status.toStatus
                customStatus := jsOr customStatus info.customStatus
                lastSeen := sess2.lastSeen } st1.onlineUsers }
      (st2,
        [OutEvent.userStatusChanged .all username socketId status.toStatus
          customStatus sess2.lastSeen,
         OutEvent.userList .all (getUniqueUserList st2)])

/-- Session part of handleUserInfoUpdate (src/server.ts lines 2266-2270):
avatar and customStatus change when the field is present, status when
truthy, lastSeen is refreshed. -/
def applyInfoUpdate (upd : InfoUpdate) (sess : UserSession) (time : Nat) :
    UserSession :=
  { sess with
    avatar := match upd.avatar with | some a => some a | none => sess.avatar
    customStatus :=
      match upd.customStatus with | some c => some c | none => sess.customStatus
    status := match upd.status with | some s => s | none => sess.status
    lastSeen := time }

/-- handleUserInfoUpdate (src/server.ts lines 2257-2286).  Object.assign
copies the provided fields, then socketId, username and lastSeen are
overwritten with the preserved values. -/
def handleUserInfoUpdate (st : ServerState) (socketId : String)
    (upd : InfoUpdate) (time : Nat) : ServerState × List OutEvent :=
  match alookup socketId st.socketToUsername with
  | none => (st, [])
  | some username =>
    match alookup username st.userSessions, alookup socketId st.onlineUsers with
    | some sess, some user =>
      let sess2 := applyInfoUpdate upd sess time
      let user2 : UserInfo :=
        { socketId := socketId
          username := some username
          status := match upd.status with | some s => s | none => user.status
          lastSeen := sess2.lastSeen
          avatar := match upd.avatar with | some a => some a | none => user.avatar
          customStatus :=
            match upd.customStatus with
            | some c => some c
            | none => user.customStatus }
      let st1 := { st with
        userSessions := aset username sess2 st.userSessions
        onlineUsers := aset socketId user2 st.onlineUsers }
      (st1, [OutEvent.userList .all (getUniqueUserList st1)])
    | _, _ => (st, [])

/-- handleJoinRoom (src/server.ts lines 2028-2043). -/
def handleJoinRoom (st : ServerState) (socketId roomName : String) (time : Nat) :
    ServerState × List OutEvent :=
  let username := alookup socketId st.socketToUsername
  let members := (alookup roomName st.rooms).getD []
  let st1 := { st with rooms := aset roomName (sadd socketId members) st.rooms }
  (st1,
    [OutEvent.userJoined (.roomExceptSocket roomName socketId) socketId username
      roomName time,
     OutEvent.joinedRoom (.socket socketId) roomName])

/-- cleanupUserFromRooms (src/server.ts lines 2363-2381): leave every room
except the default one named after the socket id, notifying the remaining
members. -/
def cleanupUserFromRooms (st : ServerState) (socketId : String) (time : Nat) :
    ServerState × List OutEvent :=
  let username := alookup socketId st.socketToUsername
  let affected :=
    (st.rooms.filter (fun p => decide (socketId ∈ p.2) && decide (p.1 ≠ socketId))).map
      Prod.fst
  let newRooms := st.rooms.map
    (fun p => if p.1 = socketId then p else (p.1, p.2.erase socketId))
  ({ st with rooms := newRooms },
    affected.map (fun r =>
      OutEvent.userLeftRoom (.roomExceptSocket r socketId) socketId username r time))

/-- handleDisconnect (src/server.ts lines 2296-2329). -/
def handleDisconnect (st : ServerState) (socketId reason : String) (time : Nat) :
    ServerState × List OutEvent :=
  let username := alookup socketId st.socketToUsername
  let st1 := { st with onlineUsers := adel socketId st.onlineUsers }
  let rem := removeSocketFromSession st1 socketId
  let st3 := { rem.1 with socketToUsername := adel socketId rem.1.socketToUsername }
  let discEvents :=
    match username with
    | some u =>
        if rem.2 then
          [OutEvent.userDisconnected (.exceptSocket socketId) u socketId reason time]
        else []
    | none => []
  let cleanup := cleanupUserFromRooms st3 socketId time
  (cleanup.1,
    discEvents
    ++ [OutEvent.userList (.exceptSocket socketId) (getUniqueUserList st3)]
    ++ cleanup.2)

/-- handleLeave (src/server.ts lines 2332-2360); the trailing
socket.disconnect(true) surfaces as a separate disconnect event in a trace. -/
def handleLeave (st : ServerState) (socketId : String) (time : Nat) :
    ServerState × List OutEvent :=
  let username := alookup socketId st.socketToUsername
  let st1 := { st with onlineUsers := adel socketId st.onlineUsers }
  let rem := removeSocketFromSession st1 socketId
  let st3 := { rem.1 with socketToUsername := adel socketId rem.1.socketToUsername }
  let discEvents :=
    match username with
    | some u =>
        if rem.2 then
          [OutEvent.userDisconnected (.exceptSocket socketId) u socketId
            "user_initiated" time]
        else []
    | none => []
  let cleanup := cleanupUserFromRooms st3 socketId time
  (cleanup.1,
    discEvents
    ++ [OutEvent.userList (.exceptSocket socketId) (getUniqueUserList st3)]
    ++ cleanup.2)

/-- getOnlineUserCount (src/server.ts lines 2384-2386). -/
def getOnlineUserCount (st : ServerState) : Nat :=
  st.userSessions.length

/-- sendHeartbeat (src/server.ts lines 2389-2398). -/
def sendHeartbeat (st : ServerState) (time : Nat) : ServerState × List OutEvent :=
  (st, [OutEvent.heartbeat time (getOnlineUserCount st) st.onlineUsers.length])

/-- Repository.create on the chatmessages collection (src/unnamed/part_002
lines 125-139): insertOne with a fresh id, returning the stored document. -/
def repoCreateMessage (repo : RepoState) (m : MsgRecord) : MsgRecord × RepoState :=
  let stored := { m with id := repo.nextId }
  (stored,
    { repo with messages := repo.messages ++ [stored], nextId := repo.nextId + 1 })

/-- Repository.findOne on chatrooms with filter { room_id } (src/unnamed/
part_002 line 146): first matching document. -/
def repoFindRoom (repo : RepoState) (roomId : String) : Option RoomRecord :=
  repo.rooms.find? (fun r => decide (r.room_id = roomId))

/-- Repository.updateOne on chatrooms with filter { room_id } and a $set of
last_message, last_message_at and last_message_sender (src/server.ts lines
2080-2091): MongoDB updates the first matching document. -/
def updateRoomSummary (roomId : String) (text : String) (sentAt : Nat)
    (sender : String) : List RoomRecord → List RoomRecord
  | [] => []
  | r :: rest =>
    if r.room_id = roomId then
      { r with
        last_message := some text
        last_message_at := some sentAt
        last_message_sender := some sender } :: rest
    else r :: updateRoomSummary roomId text sentAt sender rest

/-- Result of one saveMessageToMongoDB run: the returned document, the
store afterwards, and how many times each repository operation was
invoked. -/
structure SaveResult where
  saved : Option MsgRecord
  repo : RepoState
  createCalls : Nat
  findRoomCalls : Nat
  findUserCalls : Nat
  updateCalls : Nat
deriving DecidableEq, Repr

def SaveResult.noCalls (repo : RepoState) : SaveResult :=
  { saved := none, repo := repo, createCalls := 0, findRoomCalls := 0,
    findUserCalls := 0, updateCalls := 0 }

/-- saveMessageToMongoDB (src/server.ts lines 2047-2113).  The outer
try/catch returns null when create throws; the inner try/catch swallows
any failure of the two findOne calls or the updateOne call. -/
def saveMessageToMongoDB (hasRepos : Bool) (fm : FailureModel) (repo : RepoState)
    (c : ChatContent) : SaveResult :=
  if !hasRepos then SaveResult.noCalls repo
  else if fm.createFails then
    { saved := none, repo := repo, createCalls := 1, findRoomCalls := 0,
      findUserCalls := 0, updateCalls := 0 }
  else
    let created := repoCreateMessage repo
      { id := 0, room_id := c.roomId, sender := c.senderId,
        receiver := c.receiverId, product := c.productId, content := c.text,
        sent_at := c.timespan, status := "sent", message_type := c.msgType }
    let saved := created.1
    let repo1 := created.2
    if fm.findRoomFails then
      { saved := some saved, repo := repo1, createCalls := 1, findRoomCalls := 1,
        findUserCalls := 0, updateCalls := 0 }
    else if fm.findUserFails then
      { saved := some saved, repo := repo1, createCalls := 1, findRoomCalls := 1,
        findUserCalls := 1, updateCalls := 0 }
    else
      match repoFindRoom repo1 c.roomId, decide (c.senderId ∈ repo1.users) with
      | some _, true =>
        if fm.updateFails then
          { saved := some saved, repo := repo1, createCalls := 1,
            findRoomCalls := 1, findUserCalls := 1, updateCalls := 1 }
        else
          { saved := some saved
            repo := { repo1 with
              rooms := updateRoomSummary c.roomId c.text c.timespan c.senderId
                repo1.rooms }
            createCalls := 1, findRoomCalls := 1, findUserCalls := 1,
            updateCalls := 1 }
      | _, _ =>
        { saved := some saved, repo := repo1, createCalls := 1, findRoomCalls := 1,
          findUserCalls := 1, updateCalls := 0 }

/-- handleRoomMessage (src/server.ts lines 2116-2156).  Only a structured
payload whose action is "chat" reaches the persistence pipeline; every
other body is relayed verbatim. -/
def handleRoomMessage (st : ServerState) (socketId room : String) (body : MsgBody)
    (fm : FailureModel) (time : Nat) : ServerState × List OutEvent × SaveResult :=
  let username := alookup socketId st.socketToUsername
  match body with
  | .structured action c =>
    if action = "chat" then
      let res := saveMessageToMongoDB st.hasRepos fm st.repo c
      let content :=
        match res.saved with
        | some m => RoomMsgContent.persisted m
        | none => RoomMsgContent.omitted
      ({ st with repo := res.repo },
       [OutEvent.roomMessage (.room room) socketId username room content time],
       res)
    else
      (st,
       [OutEvent.roomMessage (.room room) socketId username room (.verbatim body)
         time],
       SaveResult.noCalls st.repo)
  | .plain _ =>
      (st,
       [OutEvent.roomMessage (.room room) socketId username room (.verbatim body)
         time],
       SaveResult.noCalls st.repo)

/-- Inbound events of the modelled core. -/
inductive Event
  | connect (socketId : String) (authUsername authInfoUsername : Option String)
      (avatar customStatus : Option String) (time : Nat)
  | statusUpdate (socketId : String) (status : ActiveStatus)
      (customStatus : Option String) (time : Nat)
  | userInfoUpdate (socketId : String) (upd : InfoUpdate) (time : Nat)
  | joinRoom (socketId : String) (room : String) (time : Nat)
  | roomMessage (socketId : String) (room : String) (body : MsgBody)
      (fm : FailureModel) (time : Nat)
  | disconnect (socketId : String) (reason : String) (time : Nat)
  | leave (socketId : String) (time : Nat)
  | heartbeatTick (time : Nat)
deriving DecidableEq, Repr

/-- One dispatch of an inbound event (src/server.ts lines 1898-1917). -/
def step (st : ServerState) : Event → ServerState × List OutEvent
  | .connect s a b av cs t => handleConnection st s a b av cs t
  | .statusUpdate s status cs t => handleStatusUpdate st s status cs t
  | .userInfoUpdate s upd t => handleUserInfoUpdate st s upd t
  | .joinRoom s r t => handleJoinRoom st s r t
  | .roomMessage s r body fm t =>
      ((handleRoomMessage st s r body fm t).1, (handleRoomMessage st s r body fm t).2.1)
  | .disconnect s reason t => handleDisconnect st s reason t
  | .leave s t => handleLeave st s t
  | .heartbeatTick t => sendHeartbeat st t

/-- Transport-level precondition: socket ids are unique, so a connect event
always carries a socket id that is not currently connected. -/
def eventOK (st : ServerState) : Event → Prop
  | .connect s _ _ _ _ _ =>
      alookup s st.socketToUsername = none ∧ alookup s st.onlineUsers = none
  | _ => True

/-- States reachable from an empty registry (with arbitrary initial store
contents) by dispatching inbound events. -/
inductive Reachable : ServerState → Prop
  | init (repo : RepoState) (hasRepos : Bool) :
      Reachable
        { onlineUsers := [], userSessions := [], socketToUsername := [],
          rooms := [], repo := repo, hasRepos := hasRepos }
  | step {st : ServerState} (e : Event) (h : Reachable st) (hok : eventOK st e) :
      Reachable (step st e).1

theorem alookup_none_iff (k : String) (l : List (String × α)) :
    alookup k l = none ↔ k ∉ akeys l := by
  constructor
  · intro h hmem
    have := alookup_isSome_of_mem_akeys k l hmem
    rw [h] at this
    cases this
  · exact alookup_eq_none_of_not_mem k l

theorem mem_sadd (x y : String) (s : List String) :
    x ∈ sadd y s ↔ x = y ∨ x ∈ s := by
  unfold sadd
  by_cases h : y ∈ s
  · simp only [if_pos h]
    constructor
    · exact Or.inr
    · rintro (rfl | hx)
      · exact h
      · exact hx
  · simp [if_neg h, or_comm]

theorem sadd_nodup (x : String) (s : List String) (h : s.Nodup) :
    (sadd x s).Nodup := by
  unfold sadd
  by_cases hm : x ∈ s
  · simpa [if_pos hm] using h
  · rw [if_neg hm]
    exact List.Nodup.append h (List.nodup_singleton x) (by simpa using hm)

theorem sadd_length_not_mem (x : String) (s : List String) (h : x ∉ s) :
    (sadd x s).length = s.length + 1 := by
  simp [sadd, if_neg h]

/-- Well-formedness of the registry state: every invariant the three maps
maintain jointly across handler invocations. -/
structure WF (st : ServerState) : Prop where
  ndSess : (akeys st.userSessions).Nodup
  ndSock : (akeys st.socketToUsername).Nodup
  keysEq : akeys st.onlineUsers = akeys st.socketToUsername
  sessOK : ∀ u sess, alookup u st.userSessions = some sess →
    sess.username = u ∧ sess.socketIds ≠ [] ∧ sess.socketIds.Nodup
  sockSess : ∀ s u, alookup s st.socketToUsername = some u →
    ∃ sess, alookup u st.userSessions = some sess ∧ s ∈ sess.socketIds
  sessSock : ∀ u sess, alookup u st.userSessions = some sess →
    ∀ s ∈ sess.socketIds, alookup s st.socketToUsername = some u
  countEq : st.onlineUsers.length =
    asum (fun sess => sess.socketIds.length) st.userSessions
  infoOK : ∀ s info, alookup s st.onlineUsers = some info →
    info.socketId = s ∧ info.username = alookup s st.socketToUsername

theorem nodup_append_singleton (l : List String) (x : String) (h : l.Nodup)
    (hx : x ∉ l) : (l ++ [x]).Nodup :=
  List.Nodup.append h (List.nodup_singleton x) (by simpa using hx)

theorem sadd_ne_nil (x : String) (s : List String) : sadd x s ≠ [] :=
  List.ne_nil_of_mem ((mem_sadd x x s).mpr (Or.inl rfl))

theorem wf_connect_core (st : ServerState) (s w : String) (info : UserInfo)
    (hsid : info.socketId = s) (hun : info.username = some w) (hwf : WF st)
    (hfu : alookup s st.socketToUsername = none)
    (hfo : alookup s st.onlineUsers = none) :
    WF { st with
      onlineUsers := aset s info st.onlineUsers
      socketToUsername := aset s w st.socketToUsername
      userSessions := addUserSession w s info st.userSessions } := by
  have hsmemU : s ∉ akeys st.socketToUsername := (alookup_none_iff _ _).mp hfu
  have hsmemO : s ∉ akeys st.onlineUsers := (alookup_none_iff _ _).mp hfo
  have hsess_fresh : ∀ u sess, alookup u st.userSessions = some sess →
      s ∉ sess.socketIds := by
    intro u sess hu hmem
    have := hwf.sessSock u sess hu s hmem
    rw [hfu] at this
    cases this
  unfold addUserSession
  cases hw : alookup w st.userSessions with
  | none =>
    have hwmem : w ∉ akeys st.userSessions := (alookup_none_iff _ _).mp hw
    refine ⟨?_, ?_, ?_, ?_, ?_, ?_, ?_, ?_⟩
    · dsimp only
      rw [akeys_aset_of_not_mem _ _ _ hwmem]
      exact nodup_append_singleton _ _ hwf.ndSess hwmem
    · dsimp only
      rw [akeys_aset_of_not_mem _ _ _ hsmemU]
      exact nodup_append_singleton _ _ hwf.ndSock hsmemU
    · dsimp only
      rw [akeys_aset_of_not_mem _ _ _ hsmemU, akeys_aset_of_not_mem _ _ _ hsmemO,
        hwf.keysEq]
    · intro u sess' h
      dsimp only at h
      by_cases hu : u = w
      · subst hu
        rw [alookup_aset_self] at h
        injection h with h
        subst h
        exact ⟨rfl, by simp, List.nodup_singleton s⟩
      · rw [alookup_aset_ne _ _ _ _ (fun he => hu he.symm)] at h
        exact hwf.sessOK u sess' h
    · intro s' u h
      dsimp only at h ⊢
      by_cases hs' : s' = s
      · subst hs'
        rw [alookup_aset_self] at h
        injection h with h
        subst h
        exact ⟨_, alookup_aset_self _ _ _, by simp⟩
      · rw [alookup_aset_ne _ _ _ _ (fun he => hs' he.symm)] at h
        obtain ⟨sess₀, hsess₀, hmem₀⟩ := hwf.sockSess s' u h
        have hu : u ≠ w := by
          intro he
          rw [he, hw] at hsess₀
          cases hsess₀
        refine ⟨sess₀, ?_, hmem₀⟩
        rw [alookup_aset_ne _ _ _ _ (fun he => hu he.symm)]
        exact hsess₀
    · intro u sess' h s' hs'
      dsimp only at h ⊢
      by_cases hu : u = w
      · subst hu
        rw [alookup_aset_self] at h
        injection h with h
        subst h
        simp only [List.mem_singleton] at hs'
        subst hs'
        exact alookup_aset_self _ _ _
      · rw [alookup_aset_ne _ _ _ _ (fun he => hu he.symm)] at h
        have hold := hwf.sessSock u sess' h s' hs'
        have hne : s' ≠ s := by
          intro he
          rw [he, hfu] at hold
          cases hold
        rw [alookup_aset_ne _ _ _ _ (fun he => hne he.symm)]
        exact hold
    · dsimp only
      rw [aset_length_not_mem _ _ _ hsmemO, asum_aset_not_mem _ _ _ _ hwmem,
        hwf.countEq]
      rfl
    · intro s' info' h
      dsimp only at h ⊢
      by_cases hs' : s' = s
      · subst hs'
        rw [alookup_aset_self] at h
        injection h with h
        subst h
        exact ⟨hsid, by rw [hun, alookup_aset_self]⟩
      · rw [alookup_aset_ne _ _ _ _ (fun he => hs' he.symm)] at h
        obtain ⟨h1, h2⟩ := hwf.infoOK s' info' h
        exact ⟨h1, by rw [h2, alookup_aset_ne _ _ _ _ (fun he => hs' he.symm)]⟩
  | some sess =>
    have hwmem : w ∈ akeys st.userSessions := mem_akeys_of_alookup _ _ _ hw
    have hsfresh : s ∉ sess.socketIds := hsess_fresh w sess hw
    obtain ⟨huname, hne, hnd⟩ := hwf.sessOK w sess hw
    refine ⟨?_, ?_, ?_, ?_, ?_, ?_, ?_, ?_⟩
    · dsimp only
      rw [akeys_aset_of_mem _ _ _ hwmem]
      exact hwf.ndSess
    · dsimp only
      rw [akeys_aset_of_not_mem _ _ _ hsmemU]
      exact nodup_append_singleton _ _ hwf.ndSock hsmemU
    · dsimp only
      rw [akeys_aset_of_not_mem _ _ _ hsmemU, akeys_aset_of_not_mem _ _ _ hsmemO,
        hwf.keysEq]
    · intro u sess' h
      dsimp only at h
      by_cases hu : u = w
      · subst hu
        rw [alookup_aset_self] at h
        injection h with h
        subst h
        exact ⟨huname, sadd_ne_nil _ _, sadd_nodup _ _ hnd⟩
      · rw [alookup_aset_ne _ _ _ _ (fun he => hu he.symm)] at h
        exact hwf.sessOK u sess' h
    · intro s' u h
      dsimp only at h ⊢
      by_cases hs' : s' = s
      · subst hs'
        rw [alookup_aset_self] at h
        injection h with h
        subst h
        exact ⟨_, alookup_aset_self _ _ _, (mem_sadd _ _ _).mpr (Or.inl rfl)⟩
      · rw [alookup_aset_ne _ _ _ _ (fun he => hs' he.symm)] at h
        obtain ⟨sess₀, hsess₀, hmem₀⟩ := hwf.sockSess s' u h
        by_cases hu : u = w
        · subst hu
          rw [hw] at hsess₀
          injection hsess₀ with hsess₀
          subst hsess₀
          exact ⟨_, alookup_aset_self _ _ _, (mem_sadd _ _ _).mpr (Or.inr hmem₀)⟩
        · refine ⟨sess₀, ?_, hmem₀⟩
          rw [alookup_aset_ne _ _ _ _ (fun he => hu he.symm)]
          exact hsess₀
    · intro u sess' h s' hs'
      dsimp only at h ⊢
      by_cases hu : u = w
      · subst hu
        rw [alookup_aset_self] at h
        injection h with h
        subst h
        rcases (mem_sadd _ _ _).mp hs' with he | hmem
        · subst he
          exact alookup_aset_self _ _ _
        · have hold := hwf.sessSock _ sess hw s' hmem
          have hne2 : s' ≠ s := fun he => hsfresh (he ▸ hmem)
          rw [alookup_aset_ne _ _ _ _ (fun he => hne2 he.symm)]
          exact hold
      · rw [alookup_aset_ne _ _ _ _ (fun he => hu he.symm)] at h
        have hold := hwf.sessSock u sess' h s' hs'
        have hne2 : s' ≠ s := by
          intro he
          rw [he, hfu] at hold
          cases hold
        rw [alookup_aset_ne _ _ _ _ (fun he => hne2 he.symm)]
        exact hold
    · dsimp only
      rw [aset_length_not_mem _ _ _ hsmemO]
      have hsum := asum_aset_lookup (fun sess => sess.socketIds.length) w
        { sess with
          socketIds := sadd s sess.socketIds
          lastSeen := info.lastSeen
          avatar := if truthy info.avatar then info.avatar else sess.avatar
          customStatus :=
            if truthy info.customStatus then info.customStatus
            else sess.customStatus } sess st.userSessions hw
      simp only at hsum
      rw [sadd_length_not_mem _ _ hsfresh] at hsum
      rw [hwf.countEq]
      omega
    · intro s' info' h
      dsimp only at h ⊢
      by_cases hs' : s' = s
      · subst hs'
        rw [alookup_aset_self] at h
        injection h with h
        subst h
        exact ⟨hsid, by rw [hun, alookup_aset_self]⟩
      · rw [alookup_aset_ne _ _ _ _ (fun he => hs' he.symm)] at h
        obtain ⟨h1, h2⟩ := hwf.infoOK s' info' h
        exact ⟨h1, by rw [h2, alookup_aset_ne _ _ _ _ (fun he => hs' he.symm)]⟩

theorem wf_of_eq (st st' : ServerState) (h1 : st'.onlineUsers = st.onlineUsers)
    (h2 : st'.userSessions = st.userSessions)
    (h3 : st'.socketToUsername = st.socketToUsername) (hwf : WF st) : WF st' := by
  refine ⟨?_, ?_, ?_, ?_, ?_, ?_, ?_, ?_⟩
  · rw [h2]; exact hwf.ndSess
  · rw [h3]; exact hwf.ndSock
  · rw [h1, h3]; exact hwf.keysEq
  · rw [h2]; exact hwf.sessOK
  · rw [h2, h3]; exact hwf.sockSess
  · rw [h2, h3]; exact hwf.sessSock
  · rw [h1, h2]; exact hwf.countEq
  · rw [h1, h3]; exact hwf.infoOK

theorem wf_set_session (st : ServerState) (u : String) (sess sess2 : UserSession)
    (h : alookup u st.userSessions = some sess) (hwf : WF st)
    (hname : sess2.username = sess.username)
    (hids : sess2.socketIds = sess.socketIds) :
    WF { st with userSessions := aset u sess2 st.userSessions } := by
  have humem : u ∈ akeys st.userSessions := mem_akeys_of_alookup _ _ _ h
  refine ⟨?_, ?_, ?_, ?_, ?_, ?_, ?_, ?_⟩
  · dsimp only
    rw [akeys_aset_of_mem _ _ _ humem]
    exact hwf.ndSess
  · exact hwf.ndSock
  · exact hwf.keysEq
  · intro u' sess' h'
    dsimp only at h'
    by_cases hu : u' = u
    · subst hu
      rw [alookup_aset_self] at h'
      injection h' with h'
      subst h'
      obtain ⟨e1, e2, e3⟩ := hwf.sessOK u' sess h
      exact ⟨hname.trans e1, hids ▸ e2, hids ▸ e3⟩
    · rw [alookup_aset_ne _ _ _ _ (fun he => hu he.symm)] at h'
      exact hwf.sessOK u' sess' h'
  · intro s' u' h'
    dsimp only
    obtain ⟨sess₀, h₀, hmem₀⟩ := hwf.sockSess s' u' h'
    by_cases hu : u' = u
    · subst hu
      rw [h] at h₀
      injection h₀ with h₀
      subst h₀
      exact ⟨sess2, alookup_aset_self _ _ _, hids ▸ hmem₀⟩
    · refine ⟨sess₀, ?_, hmem₀⟩
      rw [alookup_aset_ne _ _ _ _ (fun he => hu he.symm)]
      exact h₀
  · intro u' sess' h' s' hs'
    dsimp only at h'
    by_cases hu : u' = u
    · subst hu
      rw [alookup_aset_self] at h'
      injection h' with h'
      subst h'
      rw [hids] at hs'
      exact hwf.sessSock u' sess h s' hs'
    · rw [alookup_aset_ne _ _ _ _ (fun he => hu he.symm)] at h'
      exact hwf.sessSock u' sess' h' s' hs'
  · dsimp only
    have hsum := asum_aset_lookup (fun sess => sess.socketIds.length) u sess2 sess
      st.userSessions h
    have hlen : sess2.socketIds.length = sess.socketIds.length := by rw [hids]
    simp only at hsum
    rw [hwf.countEq]
    omega
  · exact hwf.infoOK

theorem wf_set_online (st : ServerState) (s : String) (info info2 : UserInfo)
    (h : alookup s st.onlineUsers = some info) (hwf : WF st)
    (hsid : info2.socketId = info.socketId)
    (husn : info2.username = info.username) :
    WF { st with onlineUsers := aset s info2 st.onlineUsers } := by
  have hsmem : s ∈ akeys st.onlineUsers := mem_akeys_of_alookup _ _ _ h
  refine ⟨?_, ?_, ?_, ?_, ?_, ?_, ?_, ?_⟩
  · exact hwf.ndSess
  · exact hwf.ndSock
  · dsimp only
    rw [akeys_aset_of_mem _ _ _ hsmem]
    exact hwf.keysEq
  · exact hwf.sessOK
  · exact hwf.sockSess
  · exact hwf.sessSock
  · dsimp only
    rw [aset_length_lookup _ _ _ _ h]
    exact hwf.countEq
  · intro s' info' h'
    dsimp only at h'
    by_cases hs : s' = s
    · subst hs
      rw [alookup_aset_self] at h'
      injection h' with h'
      subst h'
      obtain ⟨e1, e2⟩ := hwf.infoOK s' info h
      exact ⟨hsid.trans e1, husn.trans e2⟩
    · rw [alookup_aset_ne _ _ _ _ (fun he => hs he.symm)] at h'
      exact hwf.infoOK s' info' h'

theorem wf_remove_core (st : ServerState) (s : String) (hwf : WF st) :
    WF { (removeSocketFromSession
            { st with onlineUsers := adel s st.onlineUsers } s).1 with
      socketToUsername :=
        adel s (removeSocketFromSession
          { st with onlineUsers := adel s st.onlineUsers } s).1.socketToUsername } := by
  have ndOnline : (akeys st.onlineUsers).Nodup := by
    rw [hwf.keysEq]
    exact hwf.ndSock
  unfold removeSocketFromSession
  dsimp only
  cases hu : alookup s st.socketToUsername with
  | none =>
    have hnone_o : alookup s st.onlineUsers = none := by
      rw [alookup_none_iff, hwf.keysEq]
      exact (alookup_none_iff _ _).mp hu
    dsimp only
    refine wf_of_eq st _ ?_ ?_ ?_ hwf
    · exact adel_of_alookup_none _ _ hnone_o
    · rfl
    · exact adel_of_alookup_none _ _ hu
  | some u =>
    obtain ⟨sess, hsess, hmem⟩ := hwf.sockSess s u hu
    obtain ⟨huname, hnil, hnd⟩ := hwf.sessOK u sess hsess
    have hsome_o : (alookup s st.onlineUsers).isSome := by
      apply alookup_isSome_of_mem_akeys
      rw [hwf.keysEq]
      exact mem_akeys_of_alookup _ _ _ hu
    obtain ⟨info, hinfo⟩ := Option.isSome_iff_exists.mp hsome_o
    have hlen_er : (sess.socketIds.erase s).length = sess.socketIds.length - 1 :=
      List.length_erase_of_mem hmem
    have hlen_pos : 1 ≤ sess.socketIds.length := List.length_pos.mpr hnil
    dsimp only
    rw [hsess]
    dsimp only
    by_cases hlen : (sess.socketIds.erase s).length = 0
    · rw [if_pos hlen]
      have hone : sess.socketIds.length = 1 := by omega
      obtain ⟨a, ha⟩ := List.length_eq_one.mp hone
      have hids : sess.socketIds = [s] := by
        rw [ha] at hmem ⊢
        simp only [List.mem_singleton] at hmem
        rw [hmem]
      refine ⟨?_, ?_, ?_, ?_, ?_, ?_, ?_, ?_⟩
      · dsimp only
        rw [akeys_adel]
        exact hwf.ndSess.erase u
      · dsimp only
        rw [akeys_adel]
        exact hwf.ndSock.erase s
      · dsimp only
        rw [akeys_adel, akeys_adel, hwf.keysEq]
      · intro u' sess' h'
        dsimp only at h'
        by_cases hu' : u' = u
        · subst hu'
          rw [alookup_adel_self _ _ hwf.ndSess] at h'
          cases h'
        · rw [alookup_adel_ne _ _ _ (fun he => hu' he.symm)] at h'
          exact hwf.sessOK u' sess' h'
      · intro s' u' h'
        dsimp only at h' ⊢
        have hs' : s' ≠ s := by
          intro he
          rw [he, alookup_adel_self _ _ hwf.ndSock] at h'
          cases h'
        rw [alookup_adel_ne _ _ _ (fun he => hs' he.symm)] at h'
        obtain ⟨sess₀, h₀, hmem₀⟩ := hwf.sockSess s' u' h'
        have hu' : u' ≠ u := by
          intro he
          rw [he, hsess] at h₀
          injection h₀ with h₀
          subst h₀
          rw [hids] at hmem₀
          simp only [List.mem_singleton] at hmem₀
          exact hs' hmem₀
        refine ⟨sess₀, ?_, hmem₀⟩
        rw [alookup_adel_ne _ _ _ (fun he => hu' he.symm)]
        exact h₀
      · intro u' sess' h' s' hs'
        dsimp only at h' ⊢
        have hu' : u' ≠ u := by
          intro he
          rw [he, alookup_adel_self _ _ hwf.ndSess] at h'
          cases h'
        rw [alookup_adel_ne _ _ _ (fun he => hu' he.symm)] at h'
        have hold := hwf.sessSock u' sess' h' s' hs'
        have hne : s' ≠ s := by
          intro he
          rw [he, hu] at hold
          injection hold with hold
          exact hu' hold.symm
        rw [alookup_adel_ne _ _ _ (fun he => hne he.symm)]
        exact hold
      · dsimp only
        have h1 := adel_length_lookup s info st.onlineUsers hinfo
        have h2 := asum_adel_lookup (fun sess => sess.socketIds.length) u sess
          st.userSessions hsess
        simp only at h2
        rw [hids] at h2
        simp only [List.length_singleton] at h2
        have := hwf.countEq
        omega
      · intro s' info' h'
        dsimp only at h' ⊢
        have hs' : s' ≠ s := by
          intro he
          rw [he, alookup_adel_self _ _ ndOnline] at h'
          cases h'
        rw [alookup_adel_ne _ _ _ (fun he => hs' he.symm)] at h'
        obtain ⟨e1, e2⟩ := hwf.infoOK s' info' h'
        refine ⟨e1, ?_⟩
        rw [e2, alookup_adel_ne _ _ _ (fun he => hs' he.symm)]
    · rw [if_neg hlen]
      refine ⟨?_, ?_, ?_, ?_, ?_, ?_, ?_, ?_⟩
      · dsimp only
        rw [akeys_aset_of_mem _ _ _ (mem_akeys_of_alookup _ _ _ hsess)]
        exact hwf.ndSess
      · dsimp only
        rw [akeys_adel]
        exact hwf.ndSock.erase s
      · dsimp only
        rw [akeys_adel, akeys_adel, hwf.keysEq]
      · intro u' sess' h'
        dsimp only at h'
        by_cases hu' : u' = u
        · subst hu'
          rw [alookup_aset_self] at h'
          injection h' with h'
          subst h'
          refine ⟨huname, ?_, hnd.erase s⟩
          intro he
          dsimp only at he
          rw [he] at hlen
          exact hlen rfl
        · rw [alookup_aset_ne _ _ _ _ (fun he => hu' he.symm)] at h'
          exact hwf.sessOK u' sess' h'
      · intro s' u' h'
        dsimp only at h' ⊢
        have hs' : s' ≠ s := by
          intro he
          rw [he, alookup_adel_self _ _ hwf.ndSock] at h'
          cases h'
        rw [alookup_adel_ne _ _ _ (fun he => hs' he.symm)] at h'
        obtain ⟨sess₀, h₀, hmem₀⟩ := hwf.sockSess s' u' h'
        by_cases hu' : u' = u
        · subst hu'
          rw [hsess] at h₀
          injection h₀ with h₀
          subst h₀
          refine ⟨_, alookup_aset_self _ _ _, ?_⟩
          dsimp only
          rw [hnd.mem_erase_iff]
          exact ⟨hs', hmem₀⟩
        · refine ⟨sess₀, ?_, hmem₀⟩
          rw [alookup_aset_ne _ _ _ _ (fun he => hu' he.symm)]
          exact h₀
      · intro u' sess' h' s' hs'
        dsimp only at h' ⊢
        by_cases hu' : u' = u
        · subst hu'
          rw [alookup_aset_self] at h'
          injection h' with h'
          subst h'
          dsimp only at hs'
          rw [hnd.mem_erase_iff] at hs'
          have hold := hwf.sessSock u' sess hsess s' hs'.2
          rw [alookup_adel_ne _ _ _ (fun he => hs'.1 he.symm)]
          exact hold
        · rw [alookup_aset_ne _ _ _ _ (fun he => hu' he.symm)] at h'
          have hold := hwf.sessSock u' sess' h' s' hs'
          have hne : s' ≠ s := by
            intro he
            rw [he, hu] at hold
            injection hold with hold
            exact hu' hold.symm
          rw [alookup_adel_ne _ _ _ (fun he => hne he.symm)]
          exact hold
      · dsimp only
        have h1 := adel_length_lookup s info st.onlineUsers hinfo
        have h2 := asum_aset_lookup (fun sess => sess.socketIds.length) u
          { sess with socketIds := sess.socketIds.erase s } sess
          st.userSessions hsess
        simp only at h2
        rw [hlen_er] at h2
        have := hwf.countEq
        omega
      · intro s' info' h'
        dsimp only at h' ⊢
        have hs' : s' ≠ s := by
          intro he
          rw [he, alookup_adel_self _ _ ndOnline] at h'
          cases h'
        rw [alookup_adel_ne _ _ _ (fun he => hs' he.symm)] at h'
        obtain ⟨e1, e2⟩ := hwf.infoOK s' info' h'
        refine ⟨e1, ?_⟩
        rw [e2, alookup_adel_ne _ _ _ (fun he => hs' he.symm)]

theorem wf_handleConnection (st : ServerState) (s : String)
    (a b av cs : Option String) (t : Nat) (hwf : WF st)
    (hfu : alookup s st.socketToUsername = none)
    (hfo : alookup s st.onlineUsers = none) :
    WF (handleConnection st s a b av cs t).1 := by
  unfold handleConnection
  dsimp only
  exact wf_connect_core st s (resolveUsername s a b)
    { socketId := s, username := some (resolveUsername s a b), status := .online,
      lastSeen := t, avatar := av, customStatus := cs } rfl rfl hwf hfu hfo

theorem wf_handleStatusUpdate (st : ServerState) (s : String)
    (status : ActiveStatus) (cs : Option String) (t : Nat) (hwf : WF st) :
    WF (handleStatusUpdate st s status cs t).1 := by
  unfold handleStatusUpdate
  cases hu : alookup s st.socketToUsername with
  | none => exact hwf
  | some u =>
    dsimp only
    cases hsess : alookup u st.userSessions with
    | none => exact hwf
    | some sess =>
      dsimp only
      have hA := wf_set_session st u sess
        { sess with
          status := status.toStatus
          customStatus := jsOr cs sess.customStatus
          lastSeen := t }
        hsess hwf rfl rfl
      cases hoi : alookup s st.onlineUsers with
      | none => exact hA
      | some info =>
        dsimp only
        exact wf_set_online
          { st with
            userSessions := aset u
              { sess with
                status := status.toStatus
                customStatus := jsOr cs sess.customStatus
                lastSeen := t } st.userSessions }
          s info
          { info with
            status := status.toStatus
            customStatus := jsOr cs info.customStatus
            lastSeen := t }
          hoi hA rfl rfl

theorem wf_handleUserInfoUpdate (st : ServerState) (s : String)
    (upd : InfoUpdate) (t : Nat) (hwf : WF st) :
    WF (handleUserInfoUpdate st s upd t).1 := by
  unfold handleUserInfoUpdate
  cases hu : alookup s st.socketToUsername with
  | none => exact hwf
  | some u =>
    dsimp only
    cases hsess : alookup u st.userSessions with
    | none =>
      cases hoi : alookup s st.onlineUsers <;> exact hwf
    | some sess =>
      cases hoi : alookup s st.onlineUsers with
      | none => exact hwf
      | some user =>
        dsimp only
        obtain ⟨e1, e2⟩ := hwf.infoOK s user hoi
        have hA := wf_set_session st u sess (applyInfoUpdate upd sess t) hsess hwf
          rfl rfl
        exact wf_set_online
          { st with
            userSessions := aset u (applyInfoUpdate upd sess t) st.userSessions }
          s user
          { socketId := s
            username := some u
            status := match upd.status with | some x => x | none => user.status
            lastSeen := (applyInfoUpdate upd sess t).lastSeen
            avatar := match upd.avatar with | some a => some a | none => user.avatar
            customStatus :=
              match upd.customStatus with
              | some c => some c
              | none => user.customStatus }
          hoi hA (by dsimp only; rw [e1]) (by dsimp only; rw [e2, hu])

theorem wf_handleDisconnect (st : ServerState) (s reason : String) (t : Nat)
    (hwf : WF st) : WF (handleDisconnect st s reason t).1 := by
  unfold handleDisconnect cleanupUserFromRooms
  dsimp only
  refine wf_of_eq _ _ ?_ ?_ ?_ (wf_remove_core st s hwf) <;> rfl

theorem wf_handleLeave (st : ServerState) (s : String) (t : Nat)
    (hwf : WF st) : WF (handleLeave st s t).1 := by
  unfold handleLeave cleanupUserFromRooms
  dsimp only
  refine wf_of_eq _ _ ?_ ?_ ?_ (wf_remove_core st s hwf) <;> rfl

theorem handleRoomMessage_maps (st : ServerState) (s r : String) (b : MsgBody)
    (fm : FailureModel) (t : Nat) :
    (handleRoomMessage st s r b fm t).1.onlineUsers = st.onlineUsers ∧
    (handleRoomMessage st s r b fm t).1.userSessions = st.userSessions ∧
    (handleRoomMessage st s r b fm t).1.socketToUsername = st.socketToUsername ∧
    (handleRoomMessage st s r b fm t).1.rooms = st.rooms := by
  cases b with
  | plain s0 => exact ⟨rfl, rfl, rfl, rfl⟩
  | structured action c =>
    unfold handleRoomMessage
    dsimp only
    by_cases h : action = "chat" <;> simp [h]

/-- Every reachable server state satisfies the registry invariants. -/
theorem reachable_wf {st : ServerState} (h : Reachable st) : WF st := by
  induction h with
  | init repo hasRepos =>
    refine ⟨?_, ?_, ?_, ?_, ?_, ?_, ?_, ?_⟩
    · exact List.nodup_nil
    · exact List.nodup_nil
    · rfl
    · intro u sess h
      simp [alookup] at h
    · intro s u h
      simp [alookup] at h
    · intro u sess h
      simp [alookup] at h
    · rfl
    · intro s info h
      simp [alookup] at h
  | @step st0 e hr hok ih =>
    cases e with
    | connect s a b av cs t =>
      exact wf_handleConnection st0 s a b av cs t ih hok.1 hok.2
    | statusUpdate s status cs t => exact wf_handleStatusUpdate st0 s status cs t ih
    | userInfoUpdate s upd t => exact wf_handleUserInfoUpdate st0 s upd t ih
    | joinRoom s r t =>
      refine wf_of_eq st0 _ ?_ ?_ ?_ ih <;> rfl
    | roomMessage s r body fm t =>
      obtain ⟨h1, h2, h3, _⟩ := handleRoomMessage_maps st0 s r body fm t
      exact wf_of_eq st0 _ h1 h2 h3 ih
    | disconnect s reason t => exact wf_handleDisconnect st0 s reason t ih
    | leave s t => exact wf_handleLeave st0 s t ih
    | heartbeatTick t => exact ih

/-- Sockets a given emit target delivers to: io.emit reaches every connected
socket, socket.broadcast excludes the sender, io.to(room) reaches the
members of the room, socket.to(room) excludes the sender. -/
def recipients (st : ServerState) : Target → List String
  | .all => akeys st.onlineUsers
  | .exceptSocket s => (akeys st.onlineUsers).filter (fun x => decide (x ≠ s))
  | .socket s => [s]
  | .room r => (alookup r st.rooms).getD []
  | .roomExceptSocket r s =>
      ((alookup r st.rooms).getD []).filter (fun x => decide (x ≠ s))

def isUserStatusChangedEvt : OutEvent → Bool
  | .userStatusChanged _ _ _ _ _ _ => true
  | _ => false

def isUserDisconnectedEvt : OutEvent → Bool
  | .userDisconnected _ _ _ _ _ => true
  | _ => false

/-- Example initial state: empty registry, initialized repositories, one
room summary and one user document in the external store. -/
def exState0 : ServerState :=
  { onlineUsers := [], userSessions := [], socketToUsername := [], rooms := []
    repo :=
      { messages := []
        rooms := [{ room_id := "r1", last_message := none,
                    last_message_at := some 100, last_message_sender := none,
                    unread_count_acheteur := 0, unread_count_partenaire := 0 }]
        users := ["u1"]
        nextId := 7 }
    hasRepos := true }

theorem exState0_reachable : Reachable exState0 :=
  Reachable.init _ true

def exEvent1 : Event := .connect "s1" (some "alice") none none none 0

/-- Example state after the first connection of alice on socket s1. -/
def exState1 : ServerState := (step exState0 exEvent1).1

theorem exState1_reachable : Reachable exState1 :=
  Reachable.step exEvent1 exState0_reachable ⟨rfl, rfl⟩

/-- C1: in every reachable state a session exists for a username if and
only if some live connection id is registered under it, every stored
session has a non-empty connection set (removing the last connection
deletes the session within the same operation, so a zero-connection
session is never observable), and uniquePresenceList has exactly one
record per session, so its length is the number of distinct usernames
with at least one live connection, never the number of connections. -/
theorem session_registry_invariant {st : ServerState} (h : Reachable st) :
    (∀ u sess, alookup u st.userSessions = some sess → sess.socketIds ≠ []) ∧
    (∀ u, (alookup u st.userSessions).isSome ↔
      ∃ s, alookup s st.socketToUsername = some u) ∧
    (getUniqueUserList st).length = st.userSessions.length := by
  have hwf := reachable_wf h
  refine ⟨fun u sess hs => (hwf.sessOK u sess hs).2.1, fun u => ?_, ?_⟩
  · constructor
    · intro hsome
      obtain ⟨sess, hsess⟩ := Option.isSome_iff_exists.mp hsome
      obtain ⟨x, hx⟩ := List.exists_mem_of_ne_nil _ (hwf.sessOK u sess hsess).2.1
      exact ⟨x, hwf.sessSock u sess hsess x hx⟩
    · rintro ⟨s, hs⟩
      obtain ⟨sess, hsess, _⟩ := hwf.sockSess s u hs
      rw [hsess]
      rfl
  · unfold getUniqueUserList
    rw [List.length_map]

theorem session_registry_invariant_witness :
    (∀ u sess, alookup u exState1.userSessions = some sess →
      sess.socketIds ≠ []) ∧
    (∀ u, (alookup u exState1.userSessions).isSome ↔
      ∃ s, alookup s exState1.socketToUsername = some u) ∧
    (getUniqueUserList exState1).length = exState1.userSessions.length :=
  session_registry_invariant exState1_reachable

/-- C9: the heartbeat payload reports connectedClients equal to the length
of the unique presence list and totalSockets equal to the total size of
all sessions connection sets, in every reachable state. -/
theorem heartbeat_counts_agree {st : ServerState} (t : Nat) (h : Reachable st) :
    (sendHeartbeat st t).2 =
      [OutEvent.heartbeat t (getUniqueUserList st).length
        (asum (fun sess => sess.socketIds.length) st.userSessions)] := by
  have hwf := reachable_wf h
  have h1 : (getUniqueUserList st).length = st.userSessions.length := by
    unfold getUniqueUserList
    rw [List.length_map]
  unfold sendHeartbeat getOnlineUserCount
  rw [h1, hwf.countEq]

theorem heartbeat_counts_agree_witness :
    (sendHeartbeat exState1 5).2 =
      [OutEvent.heartbeat 5 (getUniqueUserList exState1).length
        (asum (fun sess => sess.socketIds.length) exState1.userSessions)] :=
  heartbeat_counts_agree 5 exState1_reachable

/-- C2: during a connection handshake with a fresh socket id, a
user_status_changed broadcast with status online is emitted to the other
clients exactly when the claimed username had no session yet; when a
session already exists no such broadcast is emitted and the connection id
is only appended to the existing session. -/
theorem connect_presence_broadcast {st : ServerState} (h : Reachable st)
    (s : String) (a b av cs : Option String) (t : Nat)
    (hfu : alookup s st.socketToUsername = none)
    (hfo : alookup s st.onlineUsers = none) :
    (alookup (resolveUsername s a b) st.userSessions = none →
      ((handleConnection st s a b av cs t).2).countP isUserStatusChangedEvt = 1 ∧
      OutEvent.userStatusChanged (.exceptSocket s) (resolveUsername s a b) s
        .online cs t ∈ (handleConnection st s a b av cs t).2) ∧
    (∀ sess, alookup (resolveUsername s a b) st.userSessions = some sess →
      ((handleConnection st s a b av cs t).2).countP isUserStatusChangedEvt = 0 ∧
      alookup (resolveUsername s a b)
          (handleConnection st s a b av cs t).1.userSessions =
        some { sess with
          socketIds := sess.socketIds ++ [s]
          lastSeen := t
          avatar := if truthy av then av else sess.avatar
          customStatus := if truthy cs then cs else sess.customStatus }) := by
  have hwf := reachable_wf h
  constructor
  · intro hnone
    unfold handleConnection addUserSession
    dsimp only
    rw [hnone]
    dsimp only
    rw [alookup_aset_self]
    dsimp only
    constructor
    · simp [List.countP_append, List.countP_cons, isUserStatusChangedEvt]
    · simp
  · intro sess hsess
    have hnotmem : s ∉ sess.socketIds := by
      intro hmem
      have := hwf.sessSock (resolveUsername s a b) sess hsess s hmem
      rw [hfu] at this
      cases this
    have hpos : 1 ≤ sess.socketIds.length :=
      List.length_pos.mpr (hwf.sessOK _ sess hsess).2.1
    unfold handleConnection addUserSession
    dsimp only
    rw [hsess]
    dsimp only
    rw [alookup_aset_self]
    dsimp only
    unfold sadd
    rw [if_neg hnotmem]
    have hlen : ¬(sess.socketIds ++ [s]).length = 1 := by
      rw [List.length_append]
      simp only [List.length_singleton]
      omega
    rw [if_neg hlen]
    constructor
    · simp [List.countP_append, List.countP_cons, isUserStatusChangedEvt]
    · rfl

theorem connect_presence_broadcast_witness :
    ((alookup (resolveUsername "s2" (some "bob") none) exState1.userSessions =
        none →
      ((handleConnection exState1 "s2" (some "bob") none none none 3).2).countP
          isUserStatusChangedEvt = 1 ∧
      OutEvent.userStatusChanged (.exceptSocket "s2")
          (resolveUsername "s2" (some "bob") none) "s2" .online none 3 ∈
        (handleConnection exState1 "s2" (some "bob") none none none 3).2) ∧
    (∀ sess,
      alookup (resolveUsername "s2" (some "bob") none) exState1.userSessions =
          some sess →
      ((handleConnection exState1 "s2" (some "bob") none none none 3).2).countP
          isUserStatusChangedEvt = 0 ∧
      alookup (resolveUsername "s2" (some "bob") none)
          (handleConnection exState1 "s2" (some "bob") none none none 3).1.userSessions =
        some { sess with
          socketIds := sess.socketIds ++ ["s2"]
          lastSeen := 3
          avatar := if truthy none then none else sess.avatar
          customStatus := if truthy none then none else sess.customStatus })) :=
  connect_presence_broadcast exState1_reachable "s2" (some "bob") none none none 3
    (by decide) (by decide)

theorem countP_isUserDisconnected_userLeftRoom (l : List String)
    (f : String → Target) (s : String) (un : Option String) (t : Nat) :
    (l.map (fun r => OutEvent.userLeftRoom (f r) s un r t)).countP
      isUserDisconnectedEvt = 0 := by
  rw [List.countP_eq_zero]
  intro e he
  obtain ⟨r, _, rfl⟩ := List.mem_map.mp he
  simp [isUserDisconnectedEvt]

/-- C3: a disconnect of one of several connections of a username keeps the
session with a strictly smaller connection set and emits no
user_disconnected broadcast; a disconnect of the last connection deletes
the session and emits exactly one user_disconnected broadcast. -/
theorem disconnect_last_vs_partial {st : ServerState} (h : Reachable st)
    (s reason : String) (t : Nat) (u : String)
    (hu : alookup s st.socketToUsername = some u)
    (sess : UserSession) (hsess : alookup u st.userSessions = some sess) :
    (2 ≤ sess.socketIds.length →
      alookup u (handleDisconnect st s reason t).1.userSessions =
        some { sess with socketIds := sess.socketIds.erase s } ∧
      (sess.socketIds.erase s).length < sess.socketIds.length ∧
      ((handleDisconnect st s reason t).2).countP isUserDisconnectedEvt = 0) ∧
    (sess.socketIds.length = 1 →
      alookup u (handleDisconnect st s reason t).1.userSessions = none ∧
      ((handleDisconnect st s reason t).2).countP isUserDisconnectedEvt = 1) := by
  have hwf := reachable_wf h
  obtain ⟨sess₀, h₀, hmem⟩ := hwf.sockSess s u hu
  rw [hsess] at h₀
  injection h₀ with h₀
  subst h₀
  have hlen_er : (sess.socketIds.erase s).length = sess.socketIds.length - 1 :=
    List.length_erase_of_mem hmem
  unfold handleDisconnect removeSocketFromSession cleanupUserFromRooms
  dsimp only
  rw [hu]
  dsimp only
  rw [hsess]
  dsimp only
  constructor
  · intro htwo
    rw [if_neg (by omega)]
    dsimp only
    refine ⟨alookup_aset_self _ _ _, by omega, ?_⟩
    simp [List.countP_append, List.countP_cons, isUserDisconnectedEvt,
      countP_isUserDisconnected_userLeftRoom]
  · intro hone
    rw [if_pos (by omega)]
    dsimp only
    rw [alookup_adel_self _ _ hwf.ndSess]
    refine ⟨rfl, ?_⟩
    simp [List.countP_append, List.countP_cons, isUserDisconnectedEvt,
      countP_isUserDisconnected_userLeftRoom]

theorem disconnect_last_vs_partial_witness :
    (2 ≤ ({ username := "alice", socketIds := ["s1"], status := Status.online,
            lastSeen := 0, avatar := none,
            customStatus := none } : UserSession).socketIds.length →
      alookup "alice"
          (handleDisconnect exState1 "s1" "transport close" 9).1.userSessions =
        some { username := "alice", socketIds := (["s1"] : List String).erase "s1",
               status := Status.online, lastSeen := 0, avatar := none,
               customStatus := none } ∧
      ((["s1"] : List String).erase "s1").length < (["s1"] : List String).length ∧
      ((handleDisconnect exState1 "s1" "transport close" 9).2).countP
        isUserDisconnectedEvt = 0) ∧
    (({ username := "alice", socketIds := ["s1"], status := Status.online,
        lastSeen := 0, avatar := none,
        customStatus := none } : UserSession).socketIds.length = 1 →
      alookup "alice"
          (handleDisconnect exState1 "s1" "transport close" 9).1.userSessions =
        none ∧
      ((handleDisconnect exState1 "s1" "transport close" 9).2).countP
        isUserDisconnectedEvt = 1) :=
  disconnect_last_vs_partial exState1_reachable "s1" "transport close" 9 "alice"
    (by decide)
    { username := "alice", socketIds := ["s1"], status := Status.online,
      lastSeen := 0, avatar := none, customStatus := none }
    (by decide)

/-- C10: a user_info_update on a connection with a live session leaves the
connection-to-username mapping, the set of session keys, the session
username and connection set, and the stored per-connection socketId and
username untouched, even when the payload itself carries username or
socketId fields; other sessions and other connection records are not
modified at all. -/
theorem userInfoUpdate_frame {st : ServerState} (h : Reachable st)
    (s : String) (upd : InfoUpdate) (t : Nat) (u : String)
    (hu : alookup s st.socketToUsername = some u)
    (sess : UserSession) (hsess : alookup u st.userSessions = some sess)
    (user : UserInfo) (huser : alookup s st.onlineUsers = some user) :
    (handleUserInfoUpdate st s upd t).1.socketToUsername = st.socketToUsername ∧
    akeys (handleUserInfoUpdate st s upd t).1.userSessions =
      akeys st.userSessions ∧
    (∃ sess2, alookup u (handleUserInfoUpdate st s upd t).1.userSessions =
        some sess2 ∧
      sess2.username = sess.username ∧ sess2.socketIds = sess.socketIds) ∧
    (∃ info2, alookup s (handleUserInfoUpdate st s upd t).1.onlineUsers =
        some info2 ∧
      info2.socketId = user.socketId ∧ info2.username = user.username) ∧
    (∀ u', u' ≠ u →
      alookup u' (handleUserInfoUpdate st s upd t).1.userSessions =
        alookup u' st.userSessions) ∧
    (∀ s', s' ≠ s →
      alookup s' (handleUserInfoUpdate st s upd t).1.onlineUsers =
        alookup s' st.onlineUsers) := by
  have hwf := reachable_wf h
  obtain ⟨e1, e2⟩ := hwf.infoOK s user huser
  unfold handleUserInfoUpdate
  dsimp only
  rw [hu]
  dsimp only
  rw [hsess, huser]
  dsimp only
  refine ⟨rfl, ?_, ?_, ?_, ?_, ?_⟩
  · rw [akeys_aset_of_mem _ _ _ (mem_akeys_of_alookup _ _ _ hsess)]
  · exact ⟨_, alookup_aset_self _ _ _, rfl, rfl⟩
  · refine ⟨_, alookup_aset_self _ _ _, ?_, ?_⟩
    · dsimp only
      rw [e1]
    · dsimp only
      rw [e2, hu]
  · intro u' hne
    exact alookup_aset_ne _ _ _ _ (fun he => hne he.symm)
  · intro s' hne
    exact alookup_aset_ne _ _ _ _ (fun he => hne he.symm)

theorem userInfoUpdate_frame_witness :
    ((handleUserInfoUpdate exState1 "s1"
        { socketId := some "sX", username := some "mallory",
          status := some Status.busy, avatar := none, customStatus := none }
        4).1.socketToUsername = exState1.socketToUsername ∧
    akeys (handleUserInfoUpdate exState1 "s1"
        { socketId := some "sX", username := some "mallory",
          status := some Status.busy, avatar := none, customStatus := none }
        4).1.userSessions = akeys exState1.userSessions ∧
    (∃ sess2, alookup "alice" (handleUserInfoUpdate exState1 "s1"
        { socketId := some "sX", username := some "mallory",
          status := some Status.busy, avatar := none, customStatus := none }
        4).1.userSessions = some sess2 ∧
      sess2.username =
        ({ username := "alice", socketIds := ["s1"], status := Status.online,
           lastSeen := 0, avatar := none,
           customStatus := none } : UserSession).username ∧
      sess2.socketIds =
        ({ username := "alice", socketIds := ["s1"], status := Status.online,
           lastSeen := 0, avatar := none,
           customStatus := none } : UserSession).socketIds) ∧
    (∃ info2, alookup "s1" (handleUserInfoUpdate exState1 "s1"
        { socketId := some "sX", username := some "mallory",
          status := some Status.busy, avatar := none, customStatus := none }
        4).1.onlineUsers = some info2 ∧
      info2.socketId =
        ({ socketId := "s1", username := some "alice", status := Status.online,
           lastSeen := 0, avatar := none,
           customStatus := none } : UserInfo).socketId ∧
      info2.username =
        ({ socketId := "s1", username := some "alice", status := Status.online,
           lastSeen := 0, avatar := none,
           customStatus := none } : UserInfo).username) ∧
    (∀ u', u' ≠ "alice" →
      alookup u' (handleUserInfoUpdate exState1 "s1"
        { socketId := some "sX", username := some "mallory",
          status := some Status.busy, avatar := none, customStatus := none }
        4).1.userSessions = alookup u' exState1.userSessions) ∧
    (∀ s', s' ≠ "s1" →
      alookup s' (handleUserInfoUpdate exState1 "s1"
        { socketId := some "sX", username := some "mallory",
          status := some Status.busy, avatar := none, customStatus := none }
        4).1.onlineUsers = alookup s' exState1.onlineUsers)) :=
  userInfoUpdate_frame exState1_reachable "s1"
    { socketId := some "sX", username := some "mallory",
      status := some Status.busy, avatar := none, customStatus := none }
    4 "alice" (by decide)
    { username := "alice", socketIds := ["s1"], status := Status.online,
      lastSeen := 0, avatar := none, customStatus := none }
    (by decide)
    { socketId := "s1", username := some "alice", status := Status.online,
      lastSeen := 0, avatar := none, customStatus := none }
    (by decide)

theorem alookup_mem (k : String) (v : α) (l : List (String × α))
    (h : alookup k l = some v) : (k, v) ∈ l := by
  induction l with
  | nil => cases h
  | cons p rest ih =>
    obtain ⟨k₀, v₀⟩ := p
    by_cases h0 : k₀ = k
    · rw [alookup, if_pos h0] at h
      injection h with h
      subst h0
      subst h
      exact List.mem_cons_self _ _
    · rw [alookup, if_neg h0] at h
      exact List.mem_cons_of_mem _ (ih h)

theorem mem_aset_elim (p : String × α) (k : String) (v : α) (l : List (String × α))
    (h : p ∈ aset k v l) : p = (k, v) ∨ p ∈ l := by
  induction l with
  | nil =>
    simp only [aset, List.mem_singleton] at h
    exact Or.inl h
  | cons q rest ih =>
    obtain ⟨k₀, v₀⟩ := q
    by_cases h0 : k₀ = k
    · rw [aset, if_pos h0, List.mem_cons] at h
      rcases h with h | h
      · exact Or.inl h
      · exact Or.inr (List.mem_cons_of_mem _ h)
    · rw [aset, if_neg h0, List.mem_cons] at h
      rcases h with h | h
      · exact Or.inr (h ▸ List.mem_cons_self _ _)
      · rcases ih h with h | h
        · exact Or.inl h
        · exact Or.inr (List.mem_cons_of_mem _ h)

theorem mem_adel (p : String × α) (k : String) (l : List (String × α))
    (h : p ∈ adel k l) : p ∈ l := by
  induction l with
  | nil => cases h
  | cons q rest ih =>
    obtain ⟨k₀, v₀⟩ := q
    by_cases h0 : k₀ = k
    · rw [adel, if_pos h0] at h
      exact List.mem_cons_of_mem _ h
    · rw [adel, if_neg h0, List.mem_cons] at h
      rcases h with h | h
      · exact h ▸ List.mem_cons_self _ _
      · exact List.mem_cons_of_mem _ (ih h)

def c8Event : Event :=
  .userInfoUpdate "s1"
    { socketId := none, username := none, status := some Status.offline,
      avatar := none, customStatus := none } 2

def c8State : ServerState := (step exState1 c8Event).1

theorem c8State_reachable : Reachable c8State :=
  Reachable.step c8Event exState1_reachable trivial

/-- C8 counterexample: a reachable state in which a session carries
presence status offline — a user_info_update payload may set status to
offline, so absence of a session is not the only representation of being
offline. -/
theorem never_offline_counterexample :
    Reachable c8State ∧
    (alookup "alice" c8State.userSessions).map UserSession.status =
      some Status.offline :=
  ⟨c8State_reachable, by decide⟩

theorem activeStatus_toStatus_ne_offline (a : ActiveStatus) :
    a.toStatus ≠ Status.offline := by
  cases a <;> simp [ActiveStatus.toStatus]

/-- Every user_status_changed event ever emitted carries either the fixed
status online (connection handshake) or the image of an ActiveStatus
(status_update), never the value offline. -/
theorem statusChanged_status_shape (st : ServerState) (e : Event)
    (tg : Target) (u0 s0 : String) (stat : Status) (cs0 : Option String)
    (t0 : Nat)
    (hmem : OutEvent.userStatusChanged tg u0 s0 stat cs0 t0 ∈ (step st e).2) :
    stat = Status.online ∨ ∃ a : ActiveStatus, stat = a.toStatus := by
  cases e with
  | connect s a b av cs t =>
    unfold step handleConnection at hmem
    dsimp only at hmem
    cases hls : alookup (resolveUsername s a b)
        (addUserSession (resolveUsername s a b) s
          { socketId := s, username := some (resolveUsername s a b),
            status := .online, lastSeen := t, avatar := av, customStatus := cs }
          st.userSessions) with
    | none =>
      rw [hls] at hmem
      simp at hmem
    | some sess =>
      rw [hls] at hmem
      dsimp only at hmem
      by_cases hone : sess.socketIds.length = 1
      · rw [if_pos hone] at hmem
        simp at hmem
        left
        simp_all
      · rw [if_neg hone] at hmem
        simp at hmem
  | statusUpdate s status cs t =>
    unfold step handleStatusUpdate at hmem
    dsimp only at hmem
    cases hx : alookup s st.socketToUsername with
    | none =>
      rw [hx] at hmem
      simp at hmem
    | some u =>
      rw [hx] at hmem
      dsimp only at hmem
      cases hy : alookup u st.userSessions with
      | none =>
        rw [hy] at hmem
        simp at hmem
      | some sess =>
        rw [hy] at hmem
        dsimp only at hmem
        cases hz : alookup s st.onlineUsers with
        | none =>
          rw [hz] at hmem
          simp at hmem
          exact Or.inr ⟨status, by simp_all⟩
        | some info =>
          rw [hz] at hmem
          simp at hmem
          exact Or.inr ⟨status, by simp_all⟩
  | userInfoUpdate s upd t =>
    unfold step handleUserInfoUpdate at hmem
    dsimp only at hmem
    cases hx : alookup s st.socketToUsername with
    | none =>
      rw [hx] at hmem
      simp at hmem
    | some u =>
      rw [hx] at hmem
      dsimp only at hmem
      cases hy : alookup u st.userSessions with
      | none =>
        rw [hy] at hmem
        cases hz : alookup s st.onlineUsers <;> rw [hz] at hmem <;> simp at hmem
      | some sess =>
        rw [hy] at hmem
        cases hz : alookup s st.onlineUsers <;> rw [hz] at hmem <;> simp at hmem
  | joinRoom s r t =>
    unfold step handleJoinRoom at hmem
    simp at hmem
  | roomMessage s r body fm t =>
    unfold step handleRoomMessage at hmem
    cases body with
    | plain s0 => simp at hmem
    | structured action c =>
      dsimp only at hmem
      by_cases hc : action = "chat"
      · rw [if_pos hc] at hmem
        simp at hmem
      · rw [if_neg hc] at hmem
        simp at hmem
  | disconnect s reason t =>
    unfold step handleDisconnect cleanupUserFromRooms at hmem
    dsimp only at hmem
    cases hx : alookup s st.socketToUsername with
    | none =>
      rw [hx] at hmem
      simp at hmem
    | some u =>
      rw [hx] at hmem
      dsimp only at hmem
      by_cases hb : (removeSocketFromSession
          { st with onlineUsers := adel s st.onlineUsers } s).2 = true
      · rw [if_pos hb] at hmem
        simp at hmem
      · rw [if_neg hb] at hmem
        simp at hmem
  | leave s t =>
    unfold step handleLeave cleanupUserFromRooms at hmem
    dsimp only at hmem
    cases hx : alookup s st.socketToUsername with
    | none =>
      rw [hx] at hmem
      simp at hmem
    | some u =>
      rw [hx] at hmem
      dsimp only at hmem
      by_cases hb : (removeSocketFromSession
          { st with onlineUsers := adel s st.onlineUsers } s).2 = true
      · rw [if_pos hb] at hmem
        simp at hmem
      · rw [if_neg hb] at hmem
        simp at hmem
  | heartbeatTick t =>
    unfold step sendHeartbeat at hmem
    simp at hmem

/-- C8 amended: as long as no user_info_update payload carries status
offline, no session ever stores status offline, and regardless of
payloads no user_status_changed broadcast ever carries status offline —
the original claim fails only because handleUserInfoUpdate copies a
client-supplied offline status into the session. -/
theorem never_offline_amended (st : ServerState) (e : Event)
    (hst : ∀ p ∈ st.userSessions, p.2.status ≠ Status.offline)
    (he : match e with
      | .userInfoUpdate _ upd _ => upd.status ≠ some Status.offline
      | _ => True) :
    (∀ p ∈ (step st e).1.userSessions, p.2.status ≠ Status.offline) ∧
    (∀ tg u0 s0 stat cs0 t0,
      OutEvent.userStatusChanged tg u0 s0 stat cs0 t0 ∈ (step st e).2 →
        stat ≠ Status.offline) := by
  constructor
  · intro p hp
    cases e with
    | connect s a b av cs t =>
      unfold step handleConnection addUserSession at hp
      dsimp only at hp
      cases hw : alookup (resolveUsername s a b) st.userSessions with
      | none =>
        rw [hw] at hp
        dsimp only at hp
        rcases mem_aset_elim _ _ _ _ hp with h | h
        · rw [h]
          simp
        · exact hst _ h
      | some sess =>
        rw [hw] at hp
        dsimp only at hp
        rcases mem_aset_elim _ _ _ _ hp with h | h
        · rw [h]
          dsimp only
          exact hst _ (alookup_mem _ _ _ hw)
        · exact hst _ h
    | statusUpdate s status cs t =>
      unfold step handleStatusUpdate at hp
      dsimp only at hp
      cases hx : alookup s st.socketToUsername with
      | none =>
        rw [hx] at hp
        exact hst _ hp
      | some u =>
        rw [hx] at hp
        dsimp only at hp
        cases hy : alookup u st.userSessions with
        | none =>
          rw [hy] at hp
          exact hst _ hp
        | some sess =>
          rw [hy] at hp
          dsimp only at hp
          cases hz : alookup s st.onlineUsers with
          | none =>
            rw [hz] at hp
            dsimp only at hp
            rcases mem_aset_elim _ _ _ _ hp with h | h
            · rw [h]
              exact activeStatus_toStatus_ne_offline status
            · exact hst _ h
          | some info =>
            rw [hz] at hp
            dsimp only at hp
            rcases mem_aset_elim _ _ _ _ hp with h | h
            · rw [h]
              exact activeStatus_toStatus_ne_offline status
            · exact hst _ h
    | userInfoUpdate s upd t =>
      unfold step handleUserInfoUpdate at hp
      dsimp only at hp
      cases hx : alookup s st.socketToUsername with
      | none =>
        rw [hx] at hp
        exact hst _ hp
      | some u =>
        rw [hx] at hp
        dsimp only at hp
        cases hy : alookup u st.userSessions with
        | none =>
          cases hz : alookup s st.onlineUsers <;> rw [hy, hz] at hp <;>
            exact hst _ hp
        | some sess =>
          cases hz : alookup s st.onlineUsers with
          | none =>
            rw [hy, hz] at hp
            exact hst _ hp
          | some info =>
            rw [hy, hz] at hp
            dsimp only at hp
            rcases mem_aset_elim _ _ _ _ hp with h | h
            · rw [h]
              dsimp only
              unfold applyInfoUpdate
              dsimp only
              cases hups : upd.status with
              | none => exact hst _ (alookup_mem _ _ _ hy)
              | some x =>
                intro heq
                dsimp only at heq
                apply he
                rw [hups, heq]
            · exact hst _ h
    | joinRoom s r t =>
      exact hst _ hp
    | roomMessage s r body fm t =>
      unfold step at hp
      dsimp only at hp
      rw [(handleRoomMessage_maps st s r body fm t).2.1] at hp
      exact hst _ hp
    | disconnect s reason t =>
      unfold step handleDisconnect cleanupUserFromRooms removeSocketFromSession
        at hp
      dsimp only at hp
      cases hx : alookup s st.socketToUsername with
      | none =>
        rw [hx] at hp
        exact hst _ hp
      | some u =>
        rw [hx] at hp
        dsimp only at hp
        cases hy : alookup u st.userSessions with
        | none =>
          rw [hy] at hp
          exact hst _ hp
        | some sess =>
          rw [hy] at hp
          dsimp only at hp
          by_cases hl : (sess.socketIds.erase s).length = 0
          · rw [if_pos hl] at hp
            exact hst _ (mem_adel _ _ _ hp)
          · rw [if_neg hl] at hp
            rcases mem_aset_elim _ _ _ _ hp with h | h
            · rw [h]
              dsimp only
              exact hst _ (alookup_mem _ _ _ hy)
            · exact hst _ h
    | leave s t =>
      unfold step handleLeave cleanupUserFromRooms removeSocketFromSession at hp
      dsimp only at hp
      cases hx : alookup s st.socketToUsername with
      | none =>
        rw [hx] at hp
        exact hst _ hp
      | some u =>
        rw [hx] at hp
        dsimp only at hp
        cases hy : alookup u st.userSessions with
        | none =>
          rw [hy] at hp
          exact hst _ hp
        | some sess =>
          rw [hy] at hp
          dsimp only at hp
          by_cases hl : (sess.socketIds.erase s).length = 0
          · rw [if_pos hl] at hp
            exact hst _ (mem_adel _ _ _ hp)
          · rw [if_neg hl] at hp
            rcases mem_aset_elim _ _ _ _ hp with h | h
            · rw [h]
              dsimp only
              exact hst _ (alookup_mem _ _ _ hy)
            · exact hst _ h
    | heartbeatTick t =>
      exact hst _ hp
  · intro tg u0 s0 stat cs0 t0 hmem
    rcases statusChanged_status_shape st e tg u0 s0 stat cs0 t0 hmem with h | ⟨a, ha⟩
    · rw [h]
      simp
    · rw [ha]
      exact activeStatus_toStatus_ne_offline a

theorem never_offline_amended_witness :
    ((∀ p ∈ (step exState1 (.statusUpdate "s1" .away none 5)).1.userSessions,
        p.2.status ≠ Status.offline) ∧
    (∀ tg u0 s0 stat cs0 t0,
      OutEvent.userStatusChanged tg u0 s0 stat cs0 t0 ∈
          (step exState1 (.statusUpdate "s1" .away none 5)).2 →
        stat ≠ Status.offline)) :=
  never_offline_amended exState1 (.statusUpdate "s1" .away none 5)
    (by decide) trivial

theorem saveMessage_createCalls (fm : FailureModel) (repo : RepoState)
    (c : ChatContent) : (saveMessageToMongoDB true fm repo c).createCalls = 1 := by
  unfold saveMessageToMongoDB
  cases h1 : fm.createFails with
  | true => simp [h1]
  | false =>
    simp only [h1, Bool.not_true, Bool.false_eq_true, if_false]
    cases h2 : fm.findRoomFails with
    | true => simp [h2]
    | false =>
      simp only [h2, Bool.false_eq_true, if_false]
      cases h3 : fm.findUserFails with
      | true => simp [h3]
      | false =>
        simp only [h3, Bool.false_eq_true, if_false]
        split
        · cases h4 : fm.updateFails <;> simp [h4]
        · rfl

theorem saveMessage_createFail (fm : FailureModel) (repo : RepoState)
    (c : ChatContent) (h : fm.createFails = true) :
    saveMessageToMongoDB true fm repo c =
      { saved := none, repo := repo, createCalls := 1, findRoomCalls := 0,
        findUserCalls := 0, updateCalls := 0 } := by
  unfold saveMessageToMongoDB
  simp [h]

/-- C4: a structured room_message with action "chat" calls Repository
create exactly once, and when the create fails the room_message event is
still broadcast to the whole room carrying the sender metadata with the
persisted message field omitted, and the store is left unchanged. -/
theorem chat_create_once_and_failure_broadcast (st : ServerState) (s r : String)
    (c : ChatContent) (fm : FailureModel) (t : Nat)
    (hrepos : st.hasRepos = true) :
    (handleRoomMessage st s r (.structured "chat" c) fm t).2.2.createCalls = 1 ∧
    (fm.createFails = true →
      (handleRoomMessage st s r (.structured "chat" c) fm t).2.1 =
        [OutEvent.roomMessage (.room r) s (alookup s st.socketToUsername) r
          .omitted t] ∧
      (handleRoomMessage st s r (.structured "chat" c) fm t).1.repo = st.repo) := by
  unfold handleRoomMessage
  dsimp only
  rw [if_pos rfl, hrepos]
  constructor
  · exact saveMessage_createCalls fm st.repo c
  · intro hcf
    rw [saveMessage_createFail fm st.repo c hcf]
    exact ⟨rfl, rfl⟩

theorem chat_create_once_and_failure_broadcast_witness :
    ((handleRoomMessage exState1 "s1" "general"
        (.structured "chat"
          { roomId := "r1", senderId := "u1", receiverId := "u2",
            productId := "p1", text := "hey", timespan := 50,
            msgType := "text" })
        { createFails := true, findRoomFails := false, findUserFails := false,
          updateFails := false } 6).2.2.createCalls = 1 ∧
    (({ createFails := true, findRoomFails := false, findUserFails := false,
        updateFails := false } : FailureModel).createFails = true →
      (handleRoomMessage exState1 "s1" "general"
        (.structured "chat"
          { roomId := "r1", senderId := "u1", receiverId := "u2",
            productId := "p1", text := "hey", timespan := 50,
            msgType := "text" })
        { createFails := true, findRoomFails := false, findUserFails := false,
          updateFails := false } 6).2.1 =
        [OutEvent.roomMessage (.room "general") "s1"
          (alookup "s1" exState1.socketToUsername) "general" .omitted 6] ∧
      (handleRoomMessage exState1 "s1" "general"
        (.structured "chat"
          { roomId := "r1", senderId := "u1", receiverId := "u2",
            productId := "p1", text := "hey", timespan := 50,
            msgType := "text" })
        { createFails := true, findRoomFails := false, findUserFails := false,
          updateFails := false } 6).1.repo = exState1.repo)) :=
  chat_create_once_and_failure_broadcast exState1 "s1" "general"
    { roomId := "r1", senderId := "u1", receiverId := "u2", productId := "p1",
      text := "hey", timespan := 50, msgType := "text" }
    { createFails := true, findRoomFails := false, findUserFails := false,
      updateFails := false } 6 (by decide)

/-- Bodies that trigger the persistence pipeline: structured payloads with
action "chat". -/
def isChatBody : MsgBody → Bool
  | .structured a _ => decide (a = "chat")
  | .plain _ => false

/-- C5: a room_message whose body is a plain string or a structured
payload with an action other than "chat" performs no repository
operation, leaves the whole state unchanged, and is relayed verbatim with
sender metadata to the full member list of the room — which includes the
sender when the sender has joined the room. -/
theorem nonchat_relay_verbatim (st : ServerState) (s r : String)
    (body : MsgBody) (fm : FailureModel) (t : Nat)
    (hnc : isChatBody body = false) :
    (handleRoomMessage st s r body fm t).2.2 = SaveResult.noCalls st.repo ∧
    (handleRoomMessage st s r body fm t).1 = st ∧
    (handleRoomMessage st s r body fm t).2.1 =
      [OutEvent.roomMessage (.room r) s (alookup s st.socketToUsername) r
        (.verbatim body) t] ∧
    (∀ m, m ∈ (alookup r st.rooms).getD [] →
      m ∈ recipients (handleRoomMessage st s r body fm t).1 (.room r)) := by
  cases body with
  | plain s0 =>
    exact ⟨rfl, rfl, rfl, fun m hm => hm⟩
  | structured action c =>
    unfold isChatBody at hnc
    rw [decide_eq_false_iff_not] at hnc
    unfold handleRoomMessage
    dsimp only
    rw [if_neg hnc]
    exact ⟨rfl, rfl, rfl, fun m hm => hm⟩

/-- Failure model in which every repository call succeeds. -/
def nofailFM : FailureModel :=
  { createFails := false, findRoomFails := false, findUserFails := false,
    updateFails := false }

theorem nonchat_relay_verbatim_witness :
    ((handleRoomMessage exState1 "s1" "general" (.plain "hello") nofailFM 8).2.2 =
      SaveResult.noCalls exState1.repo ∧
    (handleRoomMessage exState1 "s1" "general" (.plain "hello") nofailFM 8).1 =
      exState1 ∧
    (handleRoomMessage exState1 "s1" "general" (.plain "hello") nofailFM 8).2.1 =
      [OutEvent.roomMessage (.room "general") "s1"
        (alookup "s1" exState1.socketToUsername) "general"
        (.verbatim (.plain "hello")) 8] ∧
    (∀ m, m ∈ (alookup "general" exState1.rooms).getD [] →
      m ∈ recipients
        (handleRoomMessage exState1 "s1" "general" (.plain "hello") nofailFM 8).1
        (.room "general"))) :=
  nonchat_relay_verbatim exState1 "s1" "general" (.plain "hello") nofailFM 8
    (by decide)

/-- The document Repository.create stores for a "chat" payload: the
constructed message with the freshly assigned insert id. -/
def chatStoredMessage (repo : RepoState) (c : ChatContent) : MsgRecord :=
  { id := repo.nextId, room_id := c.roomId, sender := c.senderId,
    receiver := c.receiverId, product := c.productId, content := c.text,
    sent_at := c.timespan, status := "sent", message_type := c.msgType }

theorem saveMessage_createOK (fm : FailureModel) (repo : RepoState)
    (c : ChatContent) (hcf : fm.createFails = false) :
    (saveMessageToMongoDB true fm repo c).saved =
      some (chatStoredMessage repo c) ∧
    chatStoredMessage repo c ∈ (saveMessageToMongoDB true fm repo c).repo.messages ∧
    (saveMessageToMongoDB true fm repo c).findRoomCalls = 1 := by
  unfold saveMessageToMongoDB chatStoredMessage repoCreateMessage
  simp only [hcf, Bool.not_true, Bool.false_eq_true, if_false]
  cases h2 : fm.findRoomFails with
  | true => simp [h2]
  | false =>
    simp only [h2, Bool.false_eq_true, if_false]
    cases h3 : fm.findUserFails with
    | true => simp [h3]
    | false =>
      simp only [h3, Bool.false_eq_true, if_false]
      split
      · cases h4 : fm.updateFails with
        | true => simp [h4]
        | false => simp [h4]
      · simp

/-- C6: when the create of a "chat" message succeeds, the pipeline goes on
to attempt the Room Summary update (the summary-phase findOne is
invoked), and any failure in that phase leaves the created message in the
store — no rollback — and the room broadcast still carries the persisted
document. -/
theorem chat_summary_failure_no_rollback (st : ServerState) (s r : String)
    (c : ChatContent) (fm : FailureModel) (t : Nat)
    (hrepos : st.hasRepos = true) (hcf : fm.createFails = false)
    (hfail : fm.findRoomFails = true ∨ fm.findUserFails = true ∨
      fm.updateFails = true) :
    (handleRoomMessage st s r (.structured "chat" c) fm t).2.2.saved =
      some (chatStoredMessage st.repo c) ∧
    chatStoredMessage st.repo c ∈
      (handleRoomMessage st s r (.structured "chat" c) fm t).1.repo.messages ∧
    (handleRoomMessage st s r (.structured "chat" c) fm t).2.2.findRoomCalls = 1 ∧
    (handleRoomMessage st s r (.structured "chat" c) fm t).2.1 =
      [OutEvent.roomMessage (.room r) s (alookup s st.socketToUsername) r
        (.persisted (chatStoredMessage st.repo c)) t] := by
  obtain ⟨hsaved, hmem, hfind⟩ := saveMessage_createOK fm st.repo c hcf
  unfold handleRoomMessage
  dsimp only
  rw [if_pos rfl, hrepos]
  refine ⟨hsaved, hmem, hfind, ?_⟩
  rw [hsaved]

theorem chat_summary_failure_no_rollback_witness :
    ((handleRoomMessage exState1 "s1" "general"
        (.structured "chat"
          { roomId := "r1", senderId := "u1", receiverId := "u2",
            productId := "p1", text := "hey", timespan := 50,
            msgType := "text" })
        { createFails := false, findRoomFails := false, findUserFails := false,
          updateFails := true } 6).2.2.saved =
      some (chatStoredMessage exState1.repo
        { roomId := "r1", senderId := "u1", receiverId := "u2",
          productId := "p1", text := "hey", timespan := 50,
          msgType := "text" }) ∧
    chatStoredMessage exState1.repo
        { roomId := "r1", senderId := "u1", receiverId := "u2",
          productId := "p1", text := "hey", timespan := 50, msgType := "text" } ∈
      (handleRoomMessage exState1 "s1" "general"
        (.structured "chat"
          { roomId := "r1", senderId := "u1", receiverId := "u2",
            productId := "p1", text := "hey", timespan := 50,
            msgType := "text" })
        { createFails := false, findRoomFails := false, findUserFails := false,
          updateFails := true } 6).1.repo.messages ∧
    (handleRoomMessage exState1 "s1" "general"
        (.structured "chat"
          { roomId := "r1", senderId := "u1", receiverId := "u2",
            productId := "p1", text := "hey", timespan := 50,
            msgType := "text" })
        { createFails := false, findRoomFails := false, findUserFails := false,
          updateFails := true } 6).2.2.findRoomCalls = 1 ∧
    (handleRoomMessage exState1 "s1" "general"
        (.structured "chat"
          { roomId := "r1", senderId := "u1", receiverId := "u2",
            productId := "p1", text := "hey", timespan := 50,
            msgType := "text" })
        { createFails := false, findRoomFails := false, findUserFails := false,
          updateFails := true } 6).2.1 =
      [OutEvent.roomMessage (.room "general") "s1"
        (alookup "s1" exState1.socketToUsername) "general"
        (.persisted (chatStoredMessage exState1.repo
          { roomId := "r1", senderId := "u1", receiverId := "u2",
            productId := "p1", text := "hey", timespan := 50,
            msgType := "text" })) 6]) :=
  chat_summary_failure_no_rollback exState1 "s1" "general"
    { roomId := "r1", senderId := "u1", receiverId := "u2", productId := "p1",
      text := "hey", timespan := 50, msgType := "text" }
    { createFails := false, findRoomFails := false, findUserFails := false,
      updateFails := true } 6 (by decide) (by decide)
    (Or.inr (Or.inr rfl))

theorem find_updateRoomSummary (rooms : List RoomRecord) (rid txt : String)
    (at0 : Nat) (snd : String) (room : RoomRecord)
    (h : rooms.find? (fun r0 => decide (r0.room_id = rid)) = some room) :
    (updateRoomSummary rid txt at0 snd rooms).find?
        (fun r0 => decide (r0.room_id = rid)) =
      some { room with
        last_message := some txt
        last_message_at := some at0
        last_message_sender := some snd } := by
  induction rooms with
  | nil => cases h
  | cons r0 rest ih =>
    by_cases h0 : r0.room_id = rid
    · rw [List.find?_cons_of_pos _ (by simp [h0])] at h
      injection h with h
      subst h
      unfold updateRoomSummary
      rw [if_pos h0]
      rw [List.find?_cons_of_pos _ (by simp [h0])]
    · rw [List.find?_cons_of_neg _ (by simp [h0])] at h
      unfold updateRoomSummary
      rw [if_neg h0]
      rw [List.find?_cons_of_neg _ (by simp [h0])]
      exact ih h

theorem saveMessage_summary_success (repo : RepoState) (c : ChatContent)
    (room : RoomRecord)
    (hroom : repo.rooms.find? (fun r0 => decide (r0.room_id = c.roomId)) =
      some room)
    (huser : c.senderId ∈ repo.users) :
    (saveMessageToMongoDB true nofailFM repo c).repo.rooms =
      updateRoomSummary c.roomId c.text c.timespan c.senderId repo.rooms := by
  unfold saveMessageToMongoDB nofailFM repoCreateMessage repoFindRoom
  dsimp only
  rw [hroom, decide_eq_true huser]
  simp

/-- C7: with a fault-free repository, the summary update after a
successful "chat" create overwrites last_message, last_message_at and
last_message_sender with the incoming values unconditionally: even when
the incoming sent timestamp is strictly older than the stored
last_message_at, the stored summary afterwards carries the older incoming
timestamp. -/
theorem summary_overwrites_older (st : ServerState) (s r : String)
    (c : ChatContent) (t told : Nat) (room : RoomRecord)
    (hrepos : st.hasRepos = true)
    (hroom : st.repo.rooms.find? (fun r0 => decide (r0.room_id = c.roomId)) =
      some room)
    (huser : c.senderId ∈ st.repo.users)
    (htold : room.last_message_at = some told)
    (holder : c.timespan < told) :
    (handleRoomMessage st s r (.structured "chat" c) nofailFM t).1.repo.rooms.find?
        (fun r0 => decide (r0.room_id = c.roomId)) =
      some { room with
        last_message := some c.text
        last_message_at := some c.timespan
        last_message_sender := some c.senderId } := by
  have hrooms := saveMessage_summary_success st.repo c room hroom huser
  unfold handleRoomMessage
  dsimp only
  rw [if_pos rfl, hrepos]
  dsimp only
  rw [hrooms]
  exact find_updateRoomSummary st.repo.rooms c.roomId c.text c.timespan
    c.senderId room hroom

theorem summary_overwrites_older_witness :
    (handleRoomMessage exState1 "s1" "general"
        (.structured "chat"
          { roomId := "r1", senderId := "u1", receiverId := "u2",
            productId := "p1", text := "old text", timespan := 50,
            msgType := "text" })
        nofailFM 6).1.repo.rooms.find?
        (fun r0 => decide (r0.room_id =
          ({ roomId := "r1", senderId := "u1", receiverId := "u2",
             productId := "p1", text := "old text", timespan := 50,
             msgType := "text" } : ChatContent).roomId)) =
      some { room_id := "r1", last_message := some "old text",
             last_message_at := some 50, last_message_sender := some "u1",
             unread_count_acheteur := 0, unread_count_partenaire := 0 } :=
  summary_overwrites_older exState1 "s1" "general"
    { roomId := "r1", senderId := "u1", receiverId := "u2", productId := "p1",
      text := "old text", timespan := 50, msgType := "text" }
    6 100
    { room_id := "r1", last_message := none, last_message_at := some 100,
      last_message_sender := none, unread_count_acheteur := 0,
      unread_count_partenaire := 0 }
    (by decide) (by decide) (by decide) (by decide) (by decide)

end WsServer
